import Mathlib

/-!
Verification of the real-time simulation engine of the Sentry Defense
Protocol repository (`src/main.ts`, with the bridge layer in
`src/ui/gameBridge.ts`).

Modelling conventions (shallow embedding):
* World coordinates and times are rationals (`ℚ`).  The source uses IEEE
  doubles; every claim checked here is about exact algebraic structure
  (which branch runs, which list entry is removed, by how much a counter
  changes), not about rounding, so `ℚ` is the faithful exact model.
* Transcendental library calls (`Math.sin`, `Math.cos`, `Math.sqrt`,
  `Math.atan2`, `Math.pow`, `Math.PI`) and the unseeded uniform source
  `Math.random()` are modelled as oracle inputs collected in `Oracles`;
  the simulation consumes `Math.random()` values through a stream index
  kept in the state, exactly in source call order.
* Comparisons the source makes through `Math.sqrt` (`distanceTo(p) <= r`,
  `Math.sqrt(distanceSq) <= r`) are embedded as the equivalent squared
  comparisons (`Math.sqrt` is monotone and the radii are nonnegative, so
  the branch taken is identical).
* Scene-graph calls (`scene.add/remove`, mesh construction, rotations
  used only for rendering) are out of the simulated state, as the spec
  scopes rendering out; the cosmetic `Math.random()` draws made while
  building an enemy mesh are still consumed to keep the stream aligned.
* Outbound collaborator calls (`updateBridgeFromGame`, `recordKillReward`,
  `grantTokenBonus`, `submitScore`) are modelled as events appended to an
  event log, tagged by call site.
-/

/- ## Constants (src/main.ts lines 79-98) -/

def ENEMY_SPAWN_RADIUS : ℚ := 70
def ENEMY_TARGET_RADIUS : ℚ := 4
def BULLET_SPEED : ℚ := 90
def BULLET_LIFETIME : ℚ := 2.8
def BASE_FIRE_RATE : ℚ := 0.16
def RAPID_FIRE_MULTIPLIER : ℚ := 0.5
def EXPLOSIVE_RADIUS : ℚ := 10
def POWER_UP_LIFETIME : ℚ := 12
def POWER_UP_DROP_CHANCE : ℚ := 0.22
def POWER_PICKUP_RADIUS : ℚ := 5
def AIM_PLANE_HEIGHT : ℚ := 2.4
def MIN_INTERMISSION : ℚ := 2.2
def MAX_INTERMISSION : ℚ := 4.2
def MIN_AIM_DISTANCE : ℚ := 10
def MAX_AIM_DISTANCE : ℚ := 85
def KEYBOARD_AIM_SPEED : ℚ := 36
def TOKENS_PER_KILL : ℤ := 4
def WAVE_CLEAR_BONUS : ℤ := 12
def DEPLOYMENT_BONUS : ℤ := 25

/- ## Vectors (three.js Vector3, restricted to the operations the sim uses) -/

structure Vec3 where
  x : ℚ
  y : ℚ
  z : ℚ
deriving DecidableEq, Repr

def vadd (a b : Vec3) : Vec3 := ⟨a.x + b.x, a.y + b.y, a.z + b.z⟩

def vsub (a b : Vec3) : Vec3 := ⟨a.x - b.x, a.y - b.y, a.z - b.z⟩

def vscale (a : Vec3) (k : ℚ) : Vec3 := ⟨a.x * k, a.y * k, a.z * k⟩

/-- `p.addScaledVector(v, dt)` -/
def addScaled (p v : Vec3) (dt : ℚ) : Vec3 := ⟨p.x + v.x * dt, p.y + v.y * dt, p.z + v.z * dt⟩

/-- `a.lerp(b, t)`: componentwise `a + (b - a) * t` -/
def vlerp (a b : Vec3) (t : ℚ) : Vec3 :=
  ⟨a.x + (b.x - a.x) * t, a.y + (b.y - a.y) * t, a.z + (b.z - a.z) * t⟩

/-- squared length of the horizontal (x,z) part -/
def horizSq (p : Vec3) : ℚ := p.x * p.x + p.z * p.z

/-- squared 3-D distance (`a.distanceTo(b)` squared) -/
def dist3Sq (a b : Vec3) : ℚ :=
  (a.x - b.x) * (a.x - b.x) + (a.y - b.y) * (a.y - b.y) + (a.z - b.z) * (a.z - b.z)

def lenSq3 (a : Vec3) : ℚ := a.x * a.x + a.y * a.y + a.z * a.z

/- ## Entity data model (src/main.ts lines 52-77) -/

/-- `type GameState = "playing" | "dead"` -/
inductive GameState where
  | playing
  | dead
deriving DecidableEq, Repr

structure Bullet where
  pos : Vec3
  velocity : Vec3
  life : ℚ
deriving DecidableEq, Repr

structure Enemy where
  pos : Vec3
  velocity : Vec3
  health : ℤ
  speed : ℚ
  radius : ℚ
  halfHeight : ℚ
  idlePhase : ℚ
  bobRate : ℚ
deriving DecidableEq, Repr

inductive PowerUpType where
  | rapidFire
  | shield
  | explosive
deriving DecidableEq, Repr

structure PowerUp where
  pos : Vec3
  type : PowerUpType
  timeToLive : ℚ
deriving DecidableEq, Repr

/-- WaveTuning (src/main.ts lines 1042-1051); the nested
`spawnInterval : {min, max}` record is flattened into two fields. -/
structure WaveTuning where
  count : ℤ
  baseHealth : ℤ
  baseSpeed : ℚ
  maxSimultaneous : ℤ
  spawnIntervalMin : ℚ
  spawnIntervalMax : ℚ
deriving DecidableEq, Repr

/-- Call-site tag for `grantTokenBonus`: the deployment bonus is the call in
`startSession`, the wave-clear bonus the call in `spawnWaveIfReady`. -/
inductive BonusSource where
  | deployment
  | waveClear
deriving DecidableEq, Repr

/-- Outbound collaborator calls, tagged by call site.  `bridgePush` stands
for any telemetry push (`updateBridgeFromGame` / `pushBridgeStats` /
`setGameReadiness`); `scoreSubmit` is `submitScore`'s report. -/
inductive GEvent where
  | bridgePush
  | killReward (amount : ℤ)
  | tokenBonus (source : BonusSource) (amount : ℤ)
  | scoreSubmit (value : ℤ)
deriving DecidableEq, Repr

def GEvent.isKillReward : GEvent → Bool
  | .killReward _ => true
  | _ => false

def GEvent.isDeployBonus : GEvent → Bool
  | .tokenBonus .deployment _ => true
  | _ => false

/-- Oracles for the environment: the unseeded `Math.random()` stream and the
transcendental float library functions, plus the two scene positions the sim
reads (gun-pivot world position, muzzle world position by index). -/
structure Oracles where
  rng : ℕ → ℚ
  sinF : ℚ → ℚ
  cosF : ℚ → ℚ
  sqrtF : ℚ → ℚ
  atan2F : ℚ → ℚ → ℚ
  powF : ℕ → ℚ
  piF : ℚ
  pivotPos : Vec3
  muzzleWorld : ℕ → Vec3

/-- The mutable module-level simulation state of src/main.ts (lines 590-680).
`hasTurret` models `turret !== null && gunPivot !== null` (both are set
together by `applyMachineVariant`).  `rngIdx` is the read position in the
`Math.random()` oracle stream.  `events` is the log of outbound calls. -/
structure Sim where
  gameState : GameState
  selectionActive : Bool
  hasTurret : Bool
  score : ℚ
  lastScoreDisplayed : ℤ
  wave : ℕ
  enemiesToSpawn : ℤ
  intermission : ℚ
  spawnCooldown : ℚ
  fireCooldown : ℚ
  shieldCharges : ℕ
  waveTuning : WaveTuning
  bullets : List Bullet
  enemies : List Enemy
  powerUps : List PowerUp
  rapidFireTimer : ℚ
  explosiveTimer : ℚ
  submitScoreRecord : ℤ
  elapsedTime : ℚ
  muzzleIndex : ℕ
  muzzleCount : ℕ
  aimTarget : Vec3
  aimDirection : Vec3
  aimUp : Bool
  aimDown : Bool
  aimLeft : Bool
  aimRight : Bool
  statusMessage : String
  events : List GEvent
  rngIdx : ℕ

/-- append an outbound call to the event log -/
def emit (e : GEvent) (s : Sim) : Sim := { s with events := s.events ++ [e] }

/-- draw the next `Math.random()` value -/
def nextRand (o : Oracles) (s : Sim) : ℚ × Sim :=
  (o.rng s.rngIdx, { s with rngIdx := s.rngIdx + 1 })

/- ## Wave tuning (src/main.ts lines 1034-1057) -/

/-- JS `Math.round` (half rounds toward +infinity). -/
def jsRound (q : ℚ) : ℤ := ⌊q + 1 / 2⌋

/-- `getWaveTuning` (src/main.ts lines 1034-1052).  `powW` is the oracle
value of `Math.pow(currentWave, 1.05)`. -/
def getWaveTuning (currentWave : ℕ) (powW : ℚ) : WaveTuning :=
  let progression : ℚ := min 1 (((currentWave : ℚ) - 1) / 18)
  let count := jsRound (5 + (currentWave : ℚ) * 2.1 + powW * 0.25)
  let baseHealth := 3 + (⌊(currentWave : ℚ) / 2⌋ : ℤ)
  let baseSpeed : ℚ := 7 + (currentWave : ℚ) * 0.45
  let maxSimultaneous := min (5 + ⌊(currentWave : ℚ) * 0.6⌋) 16
  let intervalMin := max 0.95 (1.7 - progression * 0.65)
  let intervalMax := max (intervalMin + 0.55) (2.8 - progression * 0.5)
  ⟨count, baseHealth, baseSpeed, maxSimultaneous, intervalMin, intervalMax⟩

/-- `intermissionDurationForWave` (src/main.ts lines 1054-1057). -/
def intermissionDurationForWave (nextWave : ℕ) : ℚ :=
  let reduction := min ((nextWave : ℚ) * 0.15) 1.5
  max MIN_INTERMISSION (MAX_INTERMISSION - reduction)

/- ## Telemetry and session helpers (src/main.ts lines 682-696, 1147-1194) -/

/-- `pushBridgeStats` (lines 1147-1160): refresh the displayed score and push
a snapshot to the bridge. -/
def pushBridgeStats (s : Sim) : Sim :=
  emit .bridgePush { s with lastScoreDisplayed := ⌊s.score⌋ }

/-- `setStatus` (lines 682-685). -/
def setStatus (message : String) (s : Sim) : Sim :=
  pushBridgeStats { s with statusMessage := message }

/-- `submitScore` (lines 1170-1176): report the score and keep the best. -/
def submitScore (value : ℤ) (s : Sim) : Sim :=
  let s := emit (.scoreSubmit value) s
  if s.submitScoreRecord < value then { s with submitScoreRecord := value } else s

/-- `killPlayer` (lines 1162-1168): guarded transition to the Dead state. -/
def killPlayer (reason : String) (s : Sim) : Sim :=
  if s.gameState = GameState.dead then s
  else
    let s := { s with gameState := GameState.dead }
    let s := setStatus ("Base destroyed (" ++ reason ++ ").") s
    let s := submitScore ⌊s.score⌋ s
    emit .bridgePush s

/-- `applyPowerUp` (lines 1178-1194). -/
def applyPowerUp (power : PowerUpType) (s : Sim) : Sim :=
  let s :=
    match power with
    | .rapidFire => setStatus "Rapid Fire active!" { s with rapidFireTimer := 8 }
    | .shield => setStatus "Shield obtained." { s with shieldCharges := min (s.shieldCharges + 1) 3 }
    | .explosive => setStatus "Explosive rounds armed!" { s with explosiveTimer := 10 }
  pushBridgeStats s

/- ## Power-up drops and enemy death (src/main.ts lines 1110-1129, 1196-1215) -/

/-- The kind selection of `spawnPowerUp` (lines 1111-1119). -/
def kindOfRoll (roll : ℚ) : PowerUpType :=
  if roll < 0.33 then .rapidFire
  else if roll < 0.66 then .shield
  else .explosive

/-- `spawnPowerUp(position)` (lines 1110-1129): draws the kind roll and adds
the power-up at the enemy position with y forced to 1.5. -/
def spawnPowerUp (o : Oracles) (position : Vec3) (s : Sim) : Sim :=
  let (roll, s) := nextRand o s
  let type := kindOfRoll roll
  { s with powerUps := s.powerUps ++ [⟨⟨position.x, 1.5, position.z⟩, type, POWER_UP_LIFETIME⟩] }

/-- `handleEnemyDeath` (lines 1196-1206) minus the removal of the enemy from
the `enemies` array: the list surgery is done by each caller (`bulletScanGo`,
`explodeList`), matching `enemies.splice(enemies.indexOf(enemy), 1)` on the
identified entry. -/
def deathEffects (o : Oracles) (enemy : Enemy) (s : Sim) : Sim :=
  let s := { s with score := s.score + 10 }
  let killReward := TOKENS_PER_KILL + ⌊(s.wave : ℚ) * 0.5⌋
  let s := emit (.killReward killReward) s
  let (roll, s) := nextRand o s
  let s := if roll < POWER_UP_DROP_CHANCE then spawnPowerUp o enemy.pos s else s
  pushBridgeStats s

/-- the explosion radius test of `explodeAt` (line 1210):
`distanceTo(position) <= EXPLOSIVE_RADIUS`, squared form. -/
def inExplosionRadius (position : Vec3) (e : Enemy) : Bool :=
  dist3Sq e.pos position ≤ EXPLOSIVE_RADIUS * EXPLOSIVE_RADIUS

/-- The loop body of `explodeAt` (lines 1208-1215) over a list of enemies:
every enemy in radius has its health forced to 0 and receives full death
handling (including removal). -/
def explodeList (o : Oracles) (position : Vec3) : List Enemy → Sim → List Enemy × Sim
  | [], s => ([], s)
  | e :: rest, s =>
    if inExplosionRadius position e then
      let s := deathEffects o { e with health := 0 } s
      explodeList o position rest s
    else
      let pr := explodeList o position rest s
      (e :: pr.1, pr.2)

/-- `explodeAt(position)` (lines 1208-1215). -/
def explodeAt (o : Oracles) (position : Vec3) (s : Sim) : Sim :=
  let (es, s') := explodeList o position s.enemies s
  { s' with enemies := es }

/- ## Bullet update (src/main.ts lines 1217-1252) -/

/-- The bullet-enemy hit test of `updateBullets` (lines 1229-1238): the
bullet's y must lie in the enemy's height band and the horizontal squared
distance must be at most the squared enemy radius. -/
def hitTest (b : Bullet) (e : Enemy) : Bool :=
  if b.pos.y < e.pos.y - 0.5 ∨ b.pos.y > e.pos.y + e.halfHeight * 2 + 0.5 then false
  else
    let dx := b.pos.x - e.pos.x
    let dz := b.pos.z - e.pos.z
    decide (dx * dx + dz * dz ≤ e.radius * e.radius)

/-- The inner `for (const enemy of enemies)` scan of `updateBullets`
(lines 1228-1250) for one moved bullet.  `acc` is the already-scanned
portion of the array (enemies before the current one in iteration order);
the result is the new enemies array, the threaded state and whether the
bullet was consumed.  On a killing hit the enemy is removed and, when
explosive rounds are active, `explodeAt` runs over the remaining array. -/
def bulletScanGo (o : Oracles) (b : Bullet) (acc : List Enemy) :
    List Enemy → Sim → List Enemy × Sim × Bool
  | [], s => (acc, s, false)
  | e :: rest, s =>
    if hitTest b e then
      let d : ℤ := if 0 < s.explosiveTimer then 2 else 1
      let e' := { e with health := e.health - d }
      if e'.health ≤ 0 then
        let s1 := deathEffects o e' s
        if 0 < s.explosiveTimer then
          let pr := explodeList o e.pos (acc ++ rest) s1
          (pr.1, pr.2, true)
        else
          (acc ++ rest, s1, true)
      else
        (acc ++ e' :: rest, s, true)
    else
      bulletScanGo o b (acc ++ [e]) rest s

/-- The outer bullet loop of `updateBullets` (lines 1218-1251).  The source
iterates the array from the last index down to 0, so the input here is the
reversed bullet list; the returned kept-bullet list is also in reversed
order.  Each bullet first integrates its position and lifetime, is dropped
when expired, and otherwise scans the current enemies array. -/
def goBullets (o : Oracles) (dt : ℚ) : List Bullet → Sim → List Bullet × Sim
  | [], s => ([], s)
  | b :: rest, s =>
    let b' := { b with pos := addScaled b.pos b.velocity dt, life := b.life - dt }
    if b'.life ≤ 0 then
      goBullets o dt rest s
    else
      let res := bulletScanGo o b' [] s.enemies s
      let s2 := { res.2.1 with enemies := res.1 }
      let kept := goBullets o dt rest s2
      (if res.2.2 then kept.1 else b' :: kept.1, kept.2)

/-- `updateBullets` (lines 1217-1252). -/
def updateBullets (o : Oracles) (dt : ℚ) (s : Sim) : Sim :=
  let res := goBullets o dt s.bullets.reverse s
  { res.2 with bullets := res.1.reverse }

/- ## Enemy update (src/main.ts lines 1254-1286) -/

/-- the breach test of `updateEnemies` (lines 1272-1273):
`Math.sqrt(distanceSq) <= ENEMY_TARGET_RADIUS`, squared form; `distanceSq`
is taken from the position at the start of the iteration, before movement. -/
def breachTest (e : Enemy) : Bool :=
  horizSq e.pos ≤ ENEMY_TARGET_RADIUS * ENEMY_TARGET_RADIUS

/-- The movement part of one `updateEnemies` iteration (lines 1257-1271):
steer the velocity toward the origin by `lerp(target, dt * 3.6)`, zero its
y, integrate the position, and set the cosmetic bobbing height. -/
def moveEnemy (o : Oracles) (dt elapsed : ℚ) (e : Enemy) : Enemy :=
  let h : Vec3 := ⟨e.pos.x, 0, e.pos.z⟩
  let distanceSq := horizSq e.pos
  let target :=
    if 0 < distanceSq then vscale h ((1 / o.sqrtF distanceSq) * (-e.speed))
    else (⟨0, 0, -e.speed⟩ : Vec3)
  let v := vlerp e.velocity target (dt * 3.6)
  let v := { v with y := 0 }
  let p := addScaled e.pos v dt
  let p := { p with y := o.sinF (elapsed * e.bobRate + e.idlePhase) * 0.15 }
  { e with velocity := v, pos := p }

/-- The `for (let i = enemies.length - 1; i >= 0; i--)` loop of
`updateEnemies` (lines 1255-1285).  The input list is the reversed enemies
array (the source iterates from the last index down) and the output list is
in the same reversed order.  A breaching enemy consumes a shield charge and
is removed, or triggers `killPlayer` and stops the loop with the remaining
(lower-index) enemies untouched. -/
def goEnemies (o : Oracles) (dt elapsed : ℚ) : List Enemy → Sim → List Enemy × Sim
  | [], s => ([], s)
  | e :: rest, s =>
    let e' := moveEnemy o dt elapsed e
    if breachTest e then
      if 0 < s.shieldCharges then
        let s1 := { s with shieldCharges := s.shieldCharges - 1 }
        let s2 := pushBridgeStats (setStatus "Shield absorbed damage!" s1)
        goEnemies o dt elapsed rest s2
      else
        (e' :: rest, killPlayer "breach" s)
    else
      let pr := goEnemies o dt elapsed rest s
      (e' :: pr.1, pr.2)

/-- `updateEnemies` (lines 1254-1286). -/
def updateEnemies (o : Oracles) (dt : ℚ) (s : Sim) : Sim :=
  let pr := goEnemies o dt s.elapsedTime s.enemies.reverse s
  { pr.2 with enemies := pr.1.reverse }

/- ## Power-up update (src/main.ts lines 1288-1304) -/

/-- the pickup test of `updatePowerUps` (line 1298):
`position.distanceTo(turretPickupPoint) < POWER_PICKUP_RADIUS` with
`turretPickupPoint = (0, 1.5, 0)`, squared form. -/
def pickupTest (p : PowerUp) : Bool :=
  dist3Sq p.pos ⟨0, 1.5, 0⟩ < POWER_PICKUP_RADIUS * POWER_PICKUP_RADIUS

/-- The loop of `updatePowerUps` (lines 1289-1303), input and output in
reversed array order like the other backwards loops. -/
def goPowerUps (dt : ℚ) : List PowerUp → Sim → List PowerUp × Sim
  | [], s => ([], s)
  | p :: rest, s =>
    let p' := { p with timeToLive := p.timeToLive - dt }
    if p'.timeToLive ≤ 0 then
      goPowerUps dt rest s
    else if pickupTest p' then
      let s1 := applyPowerUp p'.type s
      goPowerUps dt rest s1
    else
      let pr := goPowerUps dt rest s
      (p' :: pr.1, pr.2)

/-- `updatePowerUps` (lines 1288-1304). -/
def updatePowerUps (dt : ℚ) (s : Sim) : Sim :=
  let pr := goPowerUps dt s.powerUps.reverse s
  { pr.2 with powerUps := pr.1.reverse }

/- ## Wave director (src/main.ts lines 1059-1108, 1319-1345) -/

/-- `scheduleNextSpawn` (lines 1059-1067); the random interval draw happens
only in the non-`forceFast` branch, as in the source ternary. -/
def scheduleNextSpawn (o : Oracles) (forceFast : Bool) (s : Sim) : Sim :=
  let intervalRange := s.waveTuning.spawnIntervalMax - s.waveTuning.spawnIntervalMin
  let bs : ℚ × Sim :=
    if forceFast then (s.waveTuning.spawnIntervalMin * 0.6, s)
    else
      let (r, s') := nextRand o s
      (s.waveTuning.spawnIntervalMin + r * intervalRange, s')
  let crowdFactor := (bs.2.enemies.length : ℚ) / max 1 (bs.2.waveTuning.maxSimultaneous : ℚ)
  { bs.2 with spawnCooldown := bs.1 * (1 + crowdFactor * 0.8) }

/-- `beginWave` (lines 1069-1078). -/
def beginWave (o : Oracles) (nextWave : ℕ) (freshStart : Bool) (s : Sim) : Sim :=
  let tuning := getWaveTuning nextWave (o.powF nextWave)
  let s := { s with wave := nextWave, waveTuning := tuning,
                    enemiesToSpawn := tuning.count, intermission := 0 }
  let s := scheduleNextSpawn o true s
  let tutorial := if freshStart then " Aim with mouse or arrows/WASD, keep the gun alive." else ""
  let s := setStatus ("Wave " ++ toString nextWave ++ ": " ++ toString tuning.count
    ++ " hostiles inbound." ++ tutorial) s
  pushBridgeStats s

/-- `spawnEnemy` (lines 1080-1108).  The three cosmetic draws made inside
`createHumanoidEnemy` (palette, lean, scale; lines 817-821) are consumed to
keep the random stream aligned but do not enter the simulated state. -/
def spawnEnemy (o : Oracles) (s : Sim) : Sim :=
  let (angleRoll, s) := nextRand o s
  let angle := angleRoll * o.piF * 2
  let (radiusRoll, s) := nextRand o s
  let radius := ENEMY_SPAWN_RADIUS + radiusRoll * 15
  let position : Vec3 := ⟨o.cosF angle * radius, 0, o.sinF angle * radius⟩
  let diff := vsub ⟨0, 0, 0⟩ position
  let dir := vscale diff (1 / o.sqrtF (lenSq3 diff))
  let speedVariation := s.waveTuning.baseSpeed * 0.25
  let (speedRoll, s) := nextRand o s
  let speed := s.waveTuning.baseSpeed + (speedRoll - 0.5) * speedVariation
  let (healthRoll, s) := nextRand o s
  let health := s.waveTuning.baseHealth + (if healthRoll < 0.2 then 1 else 0)
  let velocity := vscale dir speed
  let (_, s) := nextRand o s
  let (_, s) := nextRand o s
  let (_, s) := nextRand o s
  let (idleRoll, s) := nextRand o s
  let idlePhase := idleRoll * o.piF * 2
  let (bobRoll, s) := nextRand o s
  let bobRate := 2 + bobRoll
  let enemy : Enemy := ⟨position, velocity, health, speed, 1.2, 5.2, idlePhase, bobRate⟩
  pushBridgeStats { s with enemies := s.enemies ++ [enemy] }

/-- The successful-spawn cell of `spawnWaveIfReady` (lines 1326-1331):
spawn one enemy, decrement the quota, and re-arm the spawn timer while the
quota is not exhausted. -/
def spawnStep (o : Oracles) (s1 : Sim) : Sim :=
  let s2 := spawnEnemy o s1
  let s3 := { s2 with enemiesToSpawn := s2.enemiesToSpawn - 1 }
  if 0 < s3.enemiesToSpawn then scheduleNextSpawn o false s3 else s3

/-- `spawnWaveIfReady` (lines 1319-1345). -/
def spawnWaveIfReady (o : Oracles) (dt : ℚ) (s : Sim) : Sim :=
  if 0 < s.enemiesToSpawn then
    let s1 := { s with spawnCooldown := s.spawnCooldown - dt }
    if s1.spawnCooldown ≤ 0 then
      if (s1.waveTuning.maxSimultaneous : ℤ) ≤ (s1.enemies.length : ℤ) then
        { s1 with spawnCooldown := 0.25 }
      else
        spawnStep o s1
    else s1
  else if s.enemies.length = 0 ∧ s.gameState = GameState.playing then
    if s.intermission ≤ 0 then
      let s1 := { s with intermission := intermissionDurationForWave (s.wave + 1) }
      let s2 := emit (.tokenBonus .waveClear (WAVE_CLEAR_BONUS + ⌊(s.wave : ℚ) * 1.5⌋)) s1
      setStatus ("Sector clear. Wave " ++ toString (s.wave + 1) ++ " routing in...") s2
    else
      let s1 := { s with intermission := s.intermission - dt }
      if s1.intermission ≤ 0 then beginWave o (s.wave + 1) false s1 else s1
  else s

/- ## Fire control, timers, score (src/main.ts lines 1131-1145, 1347-1380) -/

/-- `spawnBullet` (lines 1131-1145): emit one bullet from the next muzzle in
round-robin order, flying along the current fire direction. -/
def spawnBullet (o : Oracles) (s : Sim) : Sim :=
  if s.muzzleCount = 0 then s
  else
    let muzzle := o.muzzleWorld s.muzzleIndex
    let s := { s with muzzleIndex := (s.muzzleIndex + 1) % s.muzzleCount }
    let velocity := vscale s.aimDirection BULLET_SPEED
    { s with bullets := s.bullets ++ [⟨muzzle, velocity, BULLET_LIFETIME⟩] }

/-- `updateFire` (lines 1364-1372). -/
def updateFire (o : Oracles) (dt : ℚ) (s : Sim) : Sim :=
  if s.selectionActive then s
  else
    let s := { s with fireCooldown := s.fireCooldown - dt }
    let rateMultiplier : ℚ := if 0 < s.rapidFireTimer then RAPID_FIRE_MULTIPLIER else 1
    if s.fireCooldown ≤ 0 ∧ s.gameState = GameState.playing then
      let s := spawnBullet o s
      { s with fireCooldown := BASE_FIRE_RATE * rateMultiplier }
    else s

/-- `updatePowerTimers` (lines 1347-1362): count both timers down to 0 and
push a snapshot only on a tick where a timer reaches zero. -/
def updatePowerTimers (dt : ℚ) (s : Sim) : Sim :=
  let changed1 :=
    if 0 < s.rapidFireTimer then
      max (s.rapidFireTimer - dt) 0 ≠ s.rapidFireTimer ∧ max (s.rapidFireTimer - dt) 0 = 0
    else False
  let s := if 0 < s.rapidFireTimer then { s with rapidFireTimer := max (s.rapidFireTimer - dt) 0 } else s
  let changed2 :=
    if 0 < s.explosiveTimer then
      max (s.explosiveTimer - dt) 0 ≠ s.explosiveTimer ∧ max (s.explosiveTimer - dt) 0 = 0
    else False
  let s := if 0 < s.explosiveTimer then { s with explosiveTimer := max (s.explosiveTimer - dt) 0 } else s
  if changed1 ∨ changed2 then pushBridgeStats s else s

/-- `updateScore` (lines 1374-1380). -/
def updateScore (dt : ℚ) (s : Sim) : Sim :=
  let s := { s with score := s.score + dt * (s.enemies.length : ℚ) * 2 }
  if ⌊s.score⌋ ≠ s.lastScoreDisplayed then pushBridgeStats s else s

/- ## Aim controller (src/main.ts lines 698-755) -/

/-- `clampAimTarget` (lines 698-711).  `Math.sqrt` inside `length()` and
`setLength()` is the oracle `sqrtF`, applied to the squared horizontal
length; `setLength(L)` scales the vector by `L / length`. -/
def clampAimTarget (o : Oracles) (t : Vec3) : Vec3 :=
  let h0 : Vec3 := ⟨t.x, 0, t.z⟩
  let len0 := o.sqrtF (horizSq h0)
  let hd : Vec3 × ℚ :=
    if len0 < 0.0001 then (⟨0, 0, MIN_AIM_DISTANCE⟩, MIN_AIM_DISTANCE) else (h0, len0)
  let h := hd.1
  let distance := hd.2
  let h :=
    if distance < MIN_AIM_DISTANCE then vscale h (MIN_AIM_DISTANCE / distance)
    else if MAX_AIM_DISTANCE < distance then vscale h (MAX_AIM_DISTANCE / distance)
    else h
  ⟨h.x, AIM_PLANE_HEIGHT, h.z⟩

/-- `orientTurretTowards` (lines 713-730), reduced to its effect on the
fire direction `aimDirection` (the turret/pivot rotations are render-side).
Yaw, pitch and the trigonometric reconstruction go through the oracles. -/
def orientTowards (o : Oracles) (target : Vec3) : Vec3 :=
  let dir := vsub target o.pivotPos
  let dir := if lenSq3 dir < 0.000001 then (⟨0, 0, 1⟩ : Vec3) else dir
  let n := vscale dir (1 / o.sqrtF (lenSq3 dir))
  let yaw := o.atan2F n.x n.z
  let horizontalLen := o.sqrtF (n.x * n.x + n.z * n.z)
  let pitch := max (min (o.atan2F n.y horizontalLen) 0.5) (-0.9)
  ⟨o.sinF yaw * o.cosF pitch, o.sinF pitch, o.cosF yaw * o.cosF pitch⟩

/-- `setAimTargetFromPoint` (lines 732-738): copy the point, force the aim
plane height, clamp, re-orient. -/
def setAimTargetFromPoint (o : Oracles) (point : Vec3) (s : Sim) : Sim :=
  if s.hasTurret = false then s
  else
    let t := clampAimTarget o ⟨point.x, AIM_PLANE_HEIGHT, point.z⟩
    { s with aimTarget := t, aimDirection := orientTowards o t }

/-- `updateKeyboardAim` (lines 740-755). -/
def updateKeyboardAim (o : Oracles) (dt : ℚ) (s : Sim) : Sim :=
  if s.selectionActive = true ∨ s.hasTurret = false then s
  else
    let dx : ℚ := (if s.aimRight then 1 else 0) - (if s.aimLeft then 1 else 0)
    let dz : ℚ := (if s.aimUp then 1 else 0) - (if s.aimDown then 1 else 0)
    if dx * dx + dz * dz = 0 then s
    else
      let k := (1 / o.sqrtF (dx * dx + dz * dz)) * (KEYBOARD_AIM_SPEED * dt)
      let t0 : Vec3 := ⟨s.aimTarget.x + dx * k, AIM_PLANE_HEIGHT, s.aimTarget.z + dz * k⟩
      let t := clampAimTarget o t0
      { s with aimTarget := t, aimDirection := orientTowards o t }

/- ## Session state machine (src/main.ts lines 41-50, 623-637, 780-814) -/

/-- `resetGame` (lines 780-814): clear all entities, zero the counters and
timers, re-align the turret, and begin wave 1. -/
def resetGame (o : Oracles) (s : Sim) : Sim :=
  if s.hasTurret = false then
    emit .bridgePush { s with selectionActive := true }
  else
    let s := { s with bullets := [], enemies := [], powerUps := [],
                      score := 0, lastScoreDisplayed := 0, intermission := 0,
                      spawnCooldown := 0, fireCooldown := 0, rapidFireTimer := 0,
                      explosiveTimer := 0, shieldCharges := 0,
                      gameState := GameState.playing,
                      aimUp := false, aimDown := false, aimLeft := false, aimRight := false }
    let neutral : Vec3 := ⟨0, AIM_PLANE_HEIGHT, 30⟩
    let s := { s with aimTarget := neutral,
                      aimDirection := orientTowards o
                        ⟨o.pivotPos.x, o.pivotPos.y, o.pivotPos.z + 30⟩ }
    let s := beginWave o 1 true s
    let s := setStatus "Aim with mouse or arrows/WASD, keep the gun alive." s
    pushBridgeStats s

/-- the `startSession` game action (lines 632-636): reset, then fire the
one-time deployment bonus; a no-op without a selected turret. -/
def startSession (o : Oracles) (s : Sim) : Sim :=
  if s.hasTurret = false then s
  else emit (.tokenBonus .deployment DEPLOYMENT_BONUS) (resetGame o s)

/-- `restartGame` (lines 47-50): reset and clear the game-over flag; no
deployment bonus is granted. -/
def restartGame (o : Oracles) (s : Sim) : Sim :=
  emit .bridgePush (resetGame o s)

/- ## The tick (src/main.ts lines 1382-1399, `gameLoop` minus rendering) -/

/-- The gated simulation block of `gameLoop` (lines 1389-1397): the
subsystems in their fixed order. -/
def runCombat (o : Oracles) (dt : ℚ) (s : Sim) : Sim :=
  updateScore dt (updatePowerTimers dt (updatePowerUps dt (updateEnemies o dt
    (updateBullets o dt (updateFire o dt (spawnWaveIfReady o dt s))))))

/-- One frame of `gameLoop`: the delta is capped at 0.033 s, keyboard aim
always runs, and the simulation subsystems run in their fixed order only
while a machine is selected and the state is Playing. -/
def tick (o : Oracles) (dtRaw : ℚ) (s : Sim) : Sim :=
  let dt := min dtRaw 0.033
  let s := { s with elapsedTime := s.elapsedTime + dt }
  let s := updateKeyboardAim o dt s
  if s.selectionActive = false ∧ s.gameState = GameState.playing then
    runCombat o dt s
  else s

/- ## Sample fixtures used by witness theorems -/

def sampleOracles : Oracles :=
  { rng := fun _ => 1 / 2, sinF := fun _ => 0, cosF := fun _ => 1,
    sqrtF := fun _ => 1, atan2F := fun _ _ => 0, powF := fun _ => 1,
    piF := 3.14, pivotPos := ⟨0, 0, 0⟩, muzzleWorld := fun _ => ⟨0, 0, 0⟩ }

def sampleEnemy : Enemy :=
  { pos := ⟨0, 0, 0⟩, velocity := ⟨0, 0, 0⟩, health := 3, speed := 10,
    radius := 1.2, halfHeight := 5.2, idlePhase := 0, bobRate := 2 }

def sampleSim : Sim :=
  { gameState := GameState.playing, selectionActive := false, hasTurret := true,
    score := 0, lastScoreDisplayed := 0, wave := 1, enemiesToSpawn := 0,
    intermission := 0, spawnCooldown := 0, fireCooldown := 5, shieldCharges := 0,
    waveTuning := getWaveTuning 1 1, bullets := [], enemies := [], powerUps := [],
    rapidFireTimer := 0, explosiveTimer := 0, submitScoreRecord := 0,
    elapsedTime := 0, muzzleIndex := 0, muzzleCount := 1,
    aimTarget := ⟨0, 2.4, 28⟩, aimDirection := ⟨0, 0, 1⟩,
    aimUp := false, aimDown := false, aimLeft := false, aimRight := false,
    statusMessage := "", events := [], rngIdx := 0 }

/-- Following the spec's words for C8 ("uniform choice among the three
kinds", "each kind chosen with probability exactly 1/3"): the exact-thirds
selector over a roll in [0,1), to be compared with the code's `kindOfRoll`. -/
def kindOfRollUniformSpec (roll : ℚ) : PowerUpType :=
  if roll < 1 / 3 then .rapidFire
  else if roll < 2 / 3 then .shield
  else .explosive

/-- number of `recordKillReward` calls in an event log -/
def killRewardCount (evs : List GEvent) : ℕ := evs.countP (fun ev => ev.isKillReward)

/-- oracle whose sqrt is exact at the witness point 40000 = 200² -/
def aimOracle : Oracles :=
  { sampleOracles with sqrtF := fun q => if q = 40000 then 200 else 1 }

/-- number of deployment-bonus signals in an event log -/
def deployCount (evs : List GEvent) : ℕ := evs.countP (fun ev => ev.isDeployBonus)

/-- `enemiesToSpawn + |enemies|`, the quantity of C2 -/
def waveSum (s : Sim) : ℤ := s.enemiesToSpawn + s.enemies.length

/-- the fields every combat helper leaves untouched: wave bookkeeping, the
enemies array, and the count of deployment-bonus signals -/
def CoreKeeps (s t : Sim) : Prop :=
  t.enemiesToSpawn = s.enemiesToSpawn ∧ t.waveTuning = s.waveTuning
    ∧ t.wave = s.wave ∧ t.enemies = s.enemies
    ∧ deployCount t.events = deployCount s.events

/- ## Basic preservation lemmas for the nonrecursive state helpers -/

lemma emit_gameState (e : GEvent) (s : Sim) : (emit e s).gameState = s.gameState := rfl

lemma setStatus_gameState (m : String) (s : Sim) : (setStatus m s).gameState = s.gameState := rfl

lemma submitScore_gameState (v : ℤ) (s : Sim) : (submitScore v s).gameState = s.gameState := by
  unfold submitScore
  dsimp only
  split <;> rfl

lemma killPlayer_gameState (reason : String) (s : Sim) :
    (killPlayer reason s).gameState = GameState.dead := by
  unfold killPlayer
  split
  · assumption
  · rw [emit_gameState, submitScore_gameState, setStatus_gameState]

lemma killPlayer_of_dead (reason : String) (s : Sim) (h : s.gameState = GameState.dead) :
    killPlayer reason s = s := by
  unfold killPlayer
  simp [h]

/- ## Claim theorems -/

/-- C7: `getWaveTuning(1)` yields count = 7, baseHealth = 3,
baseSpeed = 7.45, maxSimultaneous = 5 and spawn interval [1.7, 2.8].
(`Math.pow(1, 1.05) = 1` exactly, so the pow oracle argument is 1.) -/
theorem getWaveTuning_wave1_values :
    getWaveTuning 1 1 = ⟨7, 3, 7.45, 5, 1.7, 2.8⟩ := by
  unfold getWaveTuning
  norm_num [jsRound, WaveTuning.mk.injEq]

/-- C4: a breach with no shield transitions the state to Dead exactly once:
`killPlayer` always leaves the state Dead, is the identity on an
already-Dead state (no status change, no score submission, no telemetry
push — the whole state, event log included, is unchanged), and a second
invocation after any first one is a no-op. -/
theorem killPlayer_dead_exactly_once (reason reason2 : String) (s : Sim) :
    (killPlayer reason s).gameState = GameState.dead
    ∧ (s.gameState = GameState.dead → killPlayer reason s = s)
    ∧ killPlayer reason2 (killPlayer reason s) = killPlayer reason s :=
  ⟨killPlayer_gameState reason s, killPlayer_of_dead reason s,
    killPlayer_of_dead reason2 _ (killPlayer_gameState reason s)⟩

/-- C4 witness: a second breach signal on a concrete already-dead state is a
no-op. -/
theorem killPlayer_dead_exactly_once_witness :
    killPlayer "breach" { sampleSim with gameState := GameState.dead }
      = { sampleSim with gameState := GameState.dead } :=
  (killPlayer_dead_exactly_once "breach" "breach" _).2.1 rfl

lemma kindOfRoll_rapid_iff (r : ℚ) : kindOfRoll r = PowerUpType.rapidFire ↔ r < 0.33 := by
  unfold kindOfRoll
  split_ifs with h1 h2
  · exact iff_of_true rfl h1
  · exact iff_of_false (by simp) h1
  · exact iff_of_false (by simp) h1

lemma kindOfRoll_shield_iff (r : ℚ) :
    kindOfRoll r = PowerUpType.shield ↔ 0.33 ≤ r ∧ r < 0.66 := by
  unfold kindOfRoll
  split_ifs with h1 h2
  · exact iff_of_false (by simp) (fun h => absurd h1 (not_lt.mpr h.1))
  · exact iff_of_true rfl ⟨le_of_not_lt h1, h2⟩
  · exact iff_of_false (by simp) (fun h => h2 h.2)

lemma kindOfRoll_explosive_iff (r : ℚ) :
    kindOfRoll r = PowerUpType.explosive ↔ 0.66 ≤ r := by
  unfold kindOfRoll
  split_ifs with h1 h2
  · exact iff_of_false (by simp) (fun h => absurd h1 (not_lt.mpr (by linarith)))
  · exact iff_of_false (by simp) (fun h => absurd h2 (not_lt.mpr h))
  · exact iff_of_true rfl (le_of_not_lt h2)

/-- C8 counterexample: the claim that each power-up kind has probability
exactly 1/3 fails at the concrete roll 0.665 (= 133/200), a value in [0,1):
the code's selector yields `explosive` while the exact-thirds selector of
the spec yields `shield` (0.665 lies in the middle third). -/
theorem kind_choice_not_exact_thirds :
    kindOfRoll (133 / 200) = PowerUpType.explosive
    ∧ kindOfRollUniformSpec (133 / 200) = PowerUpType.shield
    ∧ (0 : ℚ) ≤ 133 / 200 ∧ (133 / 200 : ℚ) < 1 := by
  refine ⟨?_, ?_, by norm_num, by norm_num⟩
  · rw [kindOfRoll_explosive_iff]
    norm_num
  · unfold kindOfRollUniformSpec
    rw [if_neg (by norm_num), if_pos (by norm_num)]

/-- C8 amended: on enemy death a power-up drops exactly when the next
`Math.random()` roll is < 0.22 (probability 0.22 under a uniform roll), at
the enemy's last position; the kind is selected from the following roll by
the thresholds 0.33 and 0.66 — rapid-fire on [0, 0.33), shield on
[0.33, 0.66), explosive on [0.66, 1) — i.e. with probabilities
0.33 / 0.33 / 0.34, approximately but not exactly uniform. -/
theorem enemy_death_drop_amended (o : Oracles) (e : Enemy) (s : Sim) (r : ℚ)
    (hr0 : 0 ≤ r) (hr1 : r < 1) :
    (o.rng s.rngIdx < POWER_UP_DROP_CHANCE →
      (deathEffects o e s).powerUps
        = s.powerUps
            ++ [⟨⟨e.pos.x, 1.5, e.pos.z⟩, kindOfRoll (o.rng (s.rngIdx + 1)), POWER_UP_LIFETIME⟩])
    ∧ (¬ o.rng s.rngIdx < POWER_UP_DROP_CHANCE → (deathEffects o e s).powerUps = s.powerUps)
    ∧ (kindOfRoll r = PowerUpType.rapidFire ↔ r < 0.33)
    ∧ (kindOfRoll r = PowerUpType.shield ↔ 0.33 ≤ r ∧ r < 0.66)
    ∧ (kindOfRoll r = PowerUpType.explosive ↔ 0.66 ≤ r) := by
  refine ⟨?_, ?_, kindOfRoll_rapid_iff r, kindOfRoll_shield_iff r, kindOfRoll_explosive_iff r⟩
  · intro h
    simp [deathEffects, nextRand, emit, pushBridgeStats, spawnPowerUp, h]
  · intro h
    simp [deathEffects, nextRand, emit, pushBridgeStats, spawnPowerUp, h]

/-- C8 amended witness: with the constant-1/2 sample random stream no drop
occurs (1/2 ≥ 0.22 is false... the roll 1/2 is not below 0.22), and the
kind selector at roll 1/2 is `shield`. -/
theorem enemy_death_drop_amended_witness :
    (deathEffects sampleOracles sampleEnemy sampleSim).powerUps = sampleSim.powerUps
    ∧ (kindOfRoll (1 / 2) = PowerUpType.shield ↔ (0.33 : ℚ) ≤ 1 / 2 ∧ (1 / 2 : ℚ) < 0.66) := by
  have h := enemy_death_drop_amended sampleOracles sampleEnemy sampleSim (1 / 2)
    (by norm_num) (by norm_num)
  exact ⟨h.2.1 (by norm_num [sampleOracles, POWER_UP_DROP_CHANCE]), h.2.2.2.1⟩

/- ## Death handling and explosion lemmas (toward C5 and C1) -/

lemma killRewardCount_append (a b : List GEvent) :
    killRewardCount (a ++ b) = killRewardCount a + killRewardCount b := by
  unfold killRewardCount
  exact List.countP_append _ _ _

lemma deathEffects_facts (o : Oracles) (e : Enemy) (s : Sim) :
    (deathEffects o e s).score = s.score + 10
    ∧ (deathEffects o e s).enemies = s.enemies
    ∧ killRewardCount (deathEffects o e s).events = killRewardCount s.events + 1
    ∧ ∃ ext, (deathEffects o e s).powerUps = s.powerUps ++ ext := by
  unfold deathEffects nextRand spawnPowerUp emit pushBridgeStats
  dsimp only
  split
  · refine ⟨rfl, rfl, ?_, ⟨_, rfl⟩⟩
    simp [killRewardCount, List.countP_append, List.countP_cons, nextRand, emit,
      GEvent.isKillReward]
  · refine ⟨rfl, rfl, ?_, ⟨[], (List.append_nil _).symm⟩⟩
    simp [killRewardCount, List.countP_append, List.countP_cons, nextRand, emit,
      GEvent.isKillReward]

lemma explodeList_facts (o : Oracles) (p : Vec3) (L : List Enemy) :
    ∀ s : Sim,
      (explodeList o p L s).1 = L.filter (fun e => ! inExplosionRadius p e)
      ∧ (explodeList o p L s).2.score
          = s.score + 10 * (L.countP (fun e => inExplosionRadius p e) : ℚ)
      ∧ killRewardCount (explodeList o p L s).2.events
          = killRewardCount s.events + L.countP (fun e => inExplosionRadius p e)
      ∧ (∃ ext, (explodeList o p L s).2.powerUps = s.powerUps ++ ext)
      ∧ (explodeList o p L s).2.enemies = s.enemies := by
  induction L with
  | nil => intro s; simp [explodeList]
  | cons e rest ih =>
    intro s
    by_cases hc : inExplosionRadius p e
    · obtain ⟨d1, d2, d3, ⟨ext0, hext0⟩⟩ := deathEffects_facts o { e with health := 0 } s
      obtain ⟨i1, i2, i3, ⟨ext1, hext1⟩, i5⟩ := ih (deathEffects o { e with health := 0 } s)
      refine ⟨?_, ?_, ?_, ?_, ?_⟩
      · simp [explodeList, hc, i1]
      · simp only [explodeList, hc, if_true, i2, d1, List.countP_cons, hc]
        push_cast
        ring
      · simp only [explodeList, hc, if_true, i3, d3, List.countP_cons, hc]
        omega
      · refine ⟨ext0 ++ ext1, ?_⟩
        simp only [explodeList, hc, if_true, hext1, hext0, List.append_assoc]
      · simp only [explodeList, hc, if_true, i5, d2]
    · obtain ⟨i1, i2, i3, ⟨ext1, hext1⟩, i5⟩ := ih s
      refine ⟨?_, ?_, ?_, ⟨ext1, ?_⟩, ?_⟩
      · simp [explodeList, hc, i1]
      · simp [explodeList, hc, i2, List.countP_cons]
      · simp [explodeList, hc, i3, List.countP_cons]
      · simp [explodeList, hc, hext1]
      · simp [explodeList, hc, i5]

/-- C5: `explodeAt(p)` kills every live enemy within `EXPLOSIVE_RADIUS` (10)
of `p`: exactly the enemies with squared distance to `p` at most 10² are
removed (health is forced to 0 before full death handling), each such death
grants score +10 and one kill-reward signal and runs the probabilistic
power-up drop, and no power-up is damaged — the previous power-up list
survives as an initial segment of the new one. -/
theorem explodeAt_kills_all_in_radius (o : Oracles) (p : Vec3) (s : Sim) :
    (explodeAt o p s).enemies = s.enemies.filter (fun e => ! inExplosionRadius p e)
    ∧ (explodeAt o p s).score
        = s.score + 10 * (s.enemies.countP (fun e => inExplosionRadius p e) : ℚ)
    ∧ killRewardCount (explodeAt o p s).events
        = killRewardCount s.events + s.enemies.countP (fun e => inExplosionRadius p e)
    ∧ (explodeAt o p s).powerUps.take s.powerUps.length = s.powerUps := by
  obtain ⟨h1, h2, h3, ⟨ext, hext⟩, h5⟩ := explodeList_facts o p s.enemies s
  refine ⟨?_, ?_, ?_, ?_⟩
  · simpa [explodeAt] using h1
  · simpa [explodeAt] using h2
  · simpa [explodeAt] using h3
  · simp only [explodeAt]
    simpa [hext] using List.take_left s.powerUps ext

/- ## Bullet-enemy collision (toward C1) -/

lemma bulletScanGo_skip (o : Oracles) (b : Bullet) (pre : List Enemy)
    (hpre : ∀ x ∈ pre, hitTest b x = false) :
    ∀ (acc rest : List Enemy) (s : Sim),
      bulletScanGo o b acc (pre ++ rest) s = bulletScanGo o b (acc ++ pre) rest s := by
  induction pre with
  | nil => intro acc rest s; simp
  | cons e pre ih =>
    intro acc rest s
    have he : hitTest b e = false := hpre e (List.mem_cons_self e pre)
    have ih' := ih (fun x hx => hpre x (List.mem_cons_of_mem e hx)) (acc ++ [e]) rest s
    simp only [List.cons_append, bulletScanGo, he, Bool.false_eq_true, if_false, List.append_eq]
    rw [ih']
    simp

/-- C1: for a bullet whose hit test fails on every enemy before `e` in
iteration order and succeeds on `e`, the scan of `updateBullets` consumes
the bullet on `e` (so the bullet damages no further enemy), and reduces
`e`'s health by exactly 2 when `explosiveTimer > 0` and by 1 otherwise: if
`e` survives, the only change is `e`'s reduced health; if `e` dies without
explosive rounds, exactly `e` is removed; if `e` dies with explosive rounds,
`e` is removed and the explosion then removes the in-radius enemies, the
others keeping their health. -/
theorem bullet_hit_first_enemy (o : Oracles) (b : Bullet) (s : Sim)
    (pre post : List Enemy) (e : Enemy)
    (hpre : ∀ x ∈ pre, hitTest b x = false) (hhit : hitTest b e = true) :
    (bulletScanGo o b [] (pre ++ e :: post) s).2.2 = true
    ∧ (0 < e.health - (if 0 < s.explosiveTimer then 2 else 1) →
        (bulletScanGo o b [] (pre ++ e :: post) s).1
            = pre ++ { e with health := e.health - (if 0 < s.explosiveTimer then 2 else 1) } :: post
          ∧ (bulletScanGo o b [] (pre ++ e :: post) s).2.1 = s)
    ∧ (e.health - 1 ≤ 0 → s.explosiveTimer ≤ 0 →
        (bulletScanGo o b [] (pre ++ e :: post) s).1 = pre ++ post)
    ∧ (e.health - 2 ≤ 0 → 0 < s.explosiveTimer →
        (bulletScanGo o b [] (pre ++ e :: post) s).1
            = (pre ++ post).filter (fun x => ! inExplosionRadius e.pos x)) := by
  rw [bulletScanGo_skip o b pre hpre [] (e :: post) s]
  simp only [List.nil_append]
  refine ⟨?_, ?_, ?_, ?_⟩
  · simp only [bulletScanGo, hhit, if_true]
    split <;> split <;> rfl
  · intro hsurv
    have hnot : ¬ (e.health - (if 0 < s.explosiveTimer then 2 else 1) ≤ 0) := by omega
    simp only [bulletScanGo, hhit, if_true]
    rw [if_neg hnot]
    exact ⟨rfl, rfl⟩
  · intro hdie hexp
    have hd : (if 0 < s.explosiveTimer then (2 : ℤ) else 1) = 1 := if_neg (not_lt.mpr hexp)
    have hdead : e.health - (if 0 < s.explosiveTimer then (2 : ℤ) else 1) ≤ 0 := by
      rw [hd]; exact hdie
    simp only [bulletScanGo, hhit, if_true]
    rw [if_pos hdead, if_neg (not_lt.mpr hexp)]
  · intro hdie hexp
    have hd : (if 0 < s.explosiveTimer then (2 : ℤ) else 1) = 2 := if_pos hexp
    have hdead : e.health - (if 0 < s.explosiveTimer then (2 : ℤ) else 1) ≤ 0 := by
      rw [hd]; exact hdie
    simp only [bulletScanGo, hhit, if_true]
    rw [if_pos hdead, if_pos hexp]
    exact (explodeList_facts o e.pos (pre ++ post) _).1

/-- C1 witness: a concrete bullet at (0,1,0) hits a concrete full-health
enemy at the origin with no explosive rounds active; the bullet is consumed,
the enemy survives with health 3 - 1 = 2, and the state is otherwise
untouched. -/
theorem bullet_hit_first_enemy_witness :
    (bulletScanGo sampleOracles ⟨⟨0, 1, 0⟩, ⟨0, 0, -90⟩, 1⟩ [] [sampleEnemy] sampleSim).2.2 = true
    ∧ (bulletScanGo sampleOracles ⟨⟨0, 1, 0⟩, ⟨0, 0, -90⟩, 1⟩ [] [sampleEnemy] sampleSim).1
        = [{ sampleEnemy with health := 3 - (if (0 : ℚ) < sampleSim.explosiveTimer then 2 else 1) }]
    ∧ (bulletScanGo sampleOracles ⟨⟨0, 1, 0⟩, ⟨0, 0, -90⟩, 1⟩ [] [sampleEnemy] sampleSim).2.1
        = sampleSim := by
  have h := bullet_hit_first_enemy sampleOracles ⟨⟨0, 1, 0⟩, ⟨0, 0, -90⟩, 1⟩ sampleSim
    [] [] sampleEnemy (by intro x hx; cases hx)
    (by unfold hitTest sampleEnemy; norm_num)
  have hs : 0 < sampleEnemy.health - (if 0 < sampleSim.explosiveTimer then 2 else 1) := by
    unfold sampleEnemy sampleSim; norm_num
  obtain ⟨h1, h2, -, -⟩ := h
  obtain ⟨h2a, h2b⟩ := h2 hs
  exact ⟨h1, by simpa using h2a, by simpa using h2b⟩

/- ## Enemy update lemmas (toward C3 and C10) -/

lemma goEnemies_no_breach (o : Oracles) (dt elapsed : ℚ) (L : List Enemy)
    (hL : ∀ x ∈ L, breachTest x = false) :
    ∀ s : Sim, goEnemies o dt elapsed L s = (L.map (moveEnemy o dt elapsed), s) := by
  induction L with
  | nil => intro s; simp [goEnemies]
  | cons e rest ih =>
    intro s
    have he : breachTest e = false := hL e (List.mem_cons_self e rest)
    simp [goEnemies, he, ih (fun x hx => hL x (List.mem_cons_of_mem e hx)) s]

lemma goEnemies_append_no_breach (o : Oracles) (dt elapsed : ℚ) (L M : List Enemy)
    (hL : ∀ x ∈ L, breachTest x = false) (s : Sim) :
    goEnemies o dt elapsed (L ++ M) s
      = (L.map (moveEnemy o dt elapsed) ++ (goEnemies o dt elapsed M s).1,
          (goEnemies o dt elapsed M s).2) := by
  induction L with
  | nil => simp
  | cons e rest ih =>
    have he : breachTest e = false := hL e (List.mem_cons_self e rest)
    have ih' := ih (fun x hx => hL x (List.mem_cons_of_mem e hx))
    simp only [List.cons_append, goEnemies, he, Bool.false_eq_true, if_false, ih']
    simp [ih']

/-- C3: with exactly one shield charge and a single breaching enemy `e`
(every other enemy stays outside the breach radius), `updateEnemies` removes
`e`, drops `shieldCharges` to 0, does not transition to Dead, and keeps
processing the remaining enemies of that tick (they all still move). -/
theorem shield_absorbs_breach (o : Oracles) (dt : ℚ) (s : Sim) (A B : List Enemy) (e : Enemy)
    (hes : s.enemies = A ++ e :: B) (hsh : s.shieldCharges = 1)
    (hplay : s.gameState = GameState.playing) (hbreach : breachTest e = true)
    (hA : ∀ x ∈ A, breachTest x = false) (hB : ∀ x ∈ B, breachTest x = false) :
    (updateEnemies o dt s).enemies
        = A.map (moveEnemy o dt s.elapsedTime) ++ B.map (moveEnemy o dt s.elapsedTime)
    ∧ (updateEnemies o dt s).shieldCharges = 0
    ∧ (updateEnemies o dt s).gameState = GameState.playing := by
  have hBrev : ∀ x ∈ B.reverse, breachTest x = false := by
    intro x hx
    exact hB x (List.mem_reverse.mp hx)
  have hArev : ∀ x ∈ A.reverse, breachTest x = false := by
    intro x hx
    exact hA x (List.mem_reverse.mp hx)
  unfold updateEnemies
  rw [hes]
  have hrev : (A ++ e :: B).reverse = B.reverse ++ e :: A.reverse := by
    simp [List.reverse_append]
  rw [hrev, goEnemies_append_no_breach o dt s.elapsedTime B.reverse (e :: A.reverse) hBrev s]
  simp only [goEnemies, hbreach, if_true, hsh]
  norm_num
  rw [goEnemies_no_breach o dt s.elapsedTime A.reverse hArev]
  refine ⟨?_, ?_, ?_⟩
  · simp [List.reverse_append, List.map_reverse]
  · simp [pushBridgeStats, setStatus, emit, hsh]
  · simp [pushBridgeStats, setStatus, emit, hplay]

/-- C3 witness: one breaching enemy at horizontal distance 3 < 4 with one
shield charge: the enemy is removed, the shield is consumed, and the game
stays in Playing. -/
theorem shield_absorbs_breach_witness :
    (updateEnemies sampleOracles 0.033
        { sampleSim with enemies := [{ sampleEnemy with pos := ⟨0, 0, 3⟩ }],
                         shieldCharges := 1 }).enemies = []
    ∧ (updateEnemies sampleOracles 0.033
        { sampleSim with enemies := [{ sampleEnemy with pos := ⟨0, 0, 3⟩ }],
                         shieldCharges := 1 }).shieldCharges = 0
    ∧ (updateEnemies sampleOracles 0.033
        { sampleSim with enemies := [{ sampleEnemy with pos := ⟨0, 0, 3⟩ }],
                         shieldCharges := 1 }).gameState = GameState.playing := by
  have h := shield_absorbs_breach sampleOracles 0.033
    { sampleSim with enemies := [{ sampleEnemy with pos := ⟨0, 0, 3⟩ }], shieldCharges := 1 }
    [] [] { sampleEnemy with pos := ⟨0, 0, 3⟩ } rfl rfl rfl
    (by unfold breachTest horizSq ENEMY_TARGET_RADIUS; norm_num)
    (by intro x hx; cases hx) (by intro x hx; cases hx)
  exact ⟨by simpa using h.1, h.2.1, h.2.2⟩

lemma updateEnemies_single_far (o : Oracles) (dt : ℚ) (s : Sim) (e : Enemy)
    (hes : s.enemies = [e]) (hfar : breachTest e = false) :
    updateEnemies o dt s = { s with enemies := [moveEnemy o dt s.elapsedTime e] } := by
  unfold updateEnemies
  rw [hes]
  simp [goEnemies, hfar]

/-- C10 (implicit): `updateEnemies` tests the breach radius against the
squared distance computed from the enemy position BEFORE that iteration's
velocity integration.  Hence an enemy that starts the tick outside the
breach radius is never breach-handled during that tick, even when its
movement carries it inside the radius; the breach (shield consumption, or
`killPlayer` when no charge is left) happens only on the next invocation,
which sees the post-movement position. -/
theorem breach_uses_premove_position (o : Oracles) (dt dt2 : ℚ) (s : Sim) (e : Enemy)
    (hes : s.enemies = [e]) (hplay : s.gameState = GameState.playing)
    (hfar : breachTest e = false) :
    ((updateEnemies o dt s).enemies = [moveEnemy o dt s.elapsedTime e]
      ∧ (updateEnemies o dt s).shieldCharges = s.shieldCharges
      ∧ (updateEnemies o dt s).gameState = GameState.playing)
    ∧ (breachTest (moveEnemy o dt s.elapsedTime e) = true →
        (0 < s.shieldCharges →
            (updateEnemies o dt2 (updateEnemies o dt s)).enemies = []
            ∧ (updateEnemies o dt2 (updateEnemies o dt s)).shieldCharges = s.shieldCharges - 1
            ∧ (updateEnemies o dt2 (updateEnemies o dt s)).gameState = GameState.playing)
        ∧ (s.shieldCharges = 0 →
            (updateEnemies o dt2 (updateEnemies o dt s)).gameState = GameState.dead)) := by
  have h1 := updateEnemies_single_far o dt s e hes hfar
  refine ⟨⟨by rw [h1], by rw [h1], by rw [h1]; exact hplay⟩, ?_⟩
  intro hb
  constructor
  · intro hsh
    rw [h1]
    unfold updateEnemies
    simp only [goEnemies, hb, if_true, hsh]
    simp [pushBridgeStats, setStatus, emit, goEnemies, hplay]
  · intro hsh
    rw [h1]
    unfold updateEnemies
    simp only [goEnemies, hb, if_true, hsh]
    simp [killPlayer_gameState]

/-- C10 witness: a concrete enemy starting at horizontal distance 5 (outside
the radius 4) whose movement in one 0.033 s tick carries it inside the
radius: the first tick leaves it alive and unhandled, the second tick (with
one shield charge) absorbs the breach. -/
theorem breach_uses_premove_position_witness :
    ((updateEnemies sampleOracles 0.033
        { sampleSim with
            enemies := [{ sampleEnemy with pos := ⟨0, 0, 5⟩, velocity := ⟨0, 0, -40⟩ }],
            shieldCharges := 1 }).enemies
      = [moveEnemy sampleOracles 0.033 0
          { sampleEnemy with pos := ⟨0, 0, 5⟩, velocity := ⟨0, 0, -40⟩ }])
    ∧ (updateEnemies sampleOracles 0.033
        (updateEnemies sampleOracles 0.033
          { sampleSim with
              enemies := [{ sampleEnemy with pos := ⟨0, 0, 5⟩, velocity := ⟨0, 0, -40⟩ }],
              shieldCharges := 1 })).enemies = []
    ∧ (updateEnemies sampleOracles 0.033
        (updateEnemies sampleOracles 0.033
          { sampleSim with
              enemies := [{ sampleEnemy with pos := ⟨0, 0, 5⟩, velocity := ⟨0, 0, -40⟩ }],
              shieldCharges := 1 })).shieldCharges = 0
    ∧ (updateEnemies sampleOracles 0.033
        (updateEnemies sampleOracles 0.033
          { sampleSim with
              enemies := [{ sampleEnemy with pos := ⟨0, 0, 5⟩, velocity := ⟨0, 0, -40⟩ }],
              shieldCharges := 1 })).gameState = GameState.playing := by
  have h := breach_uses_premove_position sampleOracles 0.033 0.033
    { sampleSim with
        enemies := [{ sampleEnemy with pos := ⟨0, 0, 5⟩, velocity := ⟨0, 0, -40⟩ }],
        shieldCharges := 1 }
    { sampleEnemy with pos := ⟨0, 0, 5⟩, velocity := ⟨0, 0, -40⟩ } rfl rfl
    (by unfold breachTest horizSq ENEMY_TARGET_RADIUS; norm_num)
  have hb : breachTest (moveEnemy sampleOracles 0.033 0
      { sampleEnemy with pos := ⟨0, 0, 5⟩, velocity := ⟨0, 0, -40⟩ }) = true := by
    unfold breachTest moveEnemy horizSq vlerp vscale addScaled ENEMY_TARGET_RADIUS
      sampleOracles sampleEnemy
    norm_num
  obtain ⟨⟨p1, -, -⟩, p2⟩ := h
  obtain ⟨q1, -⟩ := p2 hb
  obtain ⟨r1, r2, r3⟩ := q1 (by norm_num)
  exact ⟨p1, r1, r2, r3⟩

/- ## Aim clamp lemmas (toward C6) -/

lemma clampAimTarget_cases (o : Oracles) (t : Vec3) (d : ℚ)
    (hsqrt : o.sqrtF (horizSq ⟨t.x, 0, t.z⟩) = d) :
    clampAimTarget o t =
      if d < 0.0001 then ⟨0, AIM_PLANE_HEIGHT, MIN_AIM_DISTANCE⟩
      else if d < MIN_AIM_DISTANCE then
        ⟨t.x * (MIN_AIM_DISTANCE / d), AIM_PLANE_HEIGHT, t.z * (MIN_AIM_DISTANCE / d)⟩
      else if MAX_AIM_DISTANCE < d then
        ⟨t.x * (MAX_AIM_DISTANCE / d), AIM_PLANE_HEIGHT, t.z * (MAX_AIM_DISTANCE / d)⟩
      else ⟨t.x, AIM_PLANE_HEIGHT, t.z⟩ := by
  unfold clampAimTarget
  dsimp only
  rw [hsqrt]
  by_cases h1 : d < 0.0001
  · simp only [h1, if_true]
    norm_num [MIN_AIM_DISTANCE, MAX_AIM_DISTANCE]
  · simp only [h1, if_false]
    by_cases h2 : d < MIN_AIM_DISTANCE
    · simp [h2, vscale]
    · by_cases h3 : MAX_AIM_DISTANCE < d
      · simp [h2, h3, vscale]
      · simp [h2, h3]

lemma scaled_horizSq (t : Vec3) (d L : ℚ) (hd2 : d ^ 2 = t.x * t.x + t.z * t.z)
    (hdne : d ≠ 0) :
    horizSq ⟨t.x * (L / d), AIM_PLANE_HEIGHT, t.z * (L / d)⟩ = L ^ 2 := by
  unfold horizSq
  have h : t.x * (L / d) * (t.x * (L / d)) + t.z * (L / d) * (t.z * (L / d))
      = (t.x * t.x + t.z * t.z) * (L / d) ^ 2 := by ring
  rw [h, ← hd2, div_pow]
  field_simp

/-- C6: after an aim update the stored target's horizontal distance from the
origin lies in [MIN_AIM_DISTANCE, MAX_AIM_DISTANCE] = [10, 85] (stated in
squared form, `Math.sqrt` being monotone): its horizontal squared length is
in [100, 7225] and its height is `AIM_PLANE_HEIGHT`.  A target beyond the
maximum (e.g. 200 units away) is stored scaled to distance exactly 85 along
the same horizontal direction; a near-zero-distance target defaults to
(0, AIM_PLANE_HEIGHT, MIN_AIM_DISTANCE).  The pointer path
`setAimTargetFromPoint` stores exactly `clampAimTarget` of the
height-normalised point (the keyboard path ends in the same clamp). -/
theorem aim_target_clamped (o : Oracles) (t : Vec3) (d : ℚ)
    (hsqrt : o.sqrtF (horizSq ⟨t.x, 0, t.z⟩) = d)
    (hd2 : d ^ 2 = t.x * t.x + t.z * t.z) (hd0 : 0 ≤ d) :
    (MIN_AIM_DISTANCE ^ 2 ≤ horizSq (clampAimTarget o t)
      ∧ horizSq (clampAimTarget o t) ≤ MAX_AIM_DISTANCE ^ 2
      ∧ (clampAimTarget o t).y = AIM_PLANE_HEIGHT)
    ∧ (MAX_AIM_DISTANCE < d →
        clampAimTarget o t
          = ⟨t.x * (MAX_AIM_DISTANCE / d), AIM_PLANE_HEIGHT, t.z * (MAX_AIM_DISTANCE / d)⟩)
    ∧ (d < 0.0001 → clampAimTarget o t = ⟨0, AIM_PLANE_HEIGHT, MIN_AIM_DISTANCE⟩)
    ∧ (∀ s : Sim, s.hasTurret = true →
        (setAimTargetFromPoint o t s).aimTarget = clampAimTarget o ⟨t.x, AIM_PLANE_HEIGHT, t.z⟩) := by
  have hc := clampAimTarget_cases o t d hsqrt
  refine ⟨?_, ?_, ?_, ?_⟩
  · rw [hc]
    by_cases h1 : d < 0.0001
    · simp only [h1, if_true]
      norm_num [horizSq, MIN_AIM_DISTANCE, MAX_AIM_DISTANCE, AIM_PLANE_HEIGHT]
    · have hd : (0 : ℚ) < d := lt_of_lt_of_le (by norm_num) (not_lt.mp h1)
      have hdne : d ≠ 0 := ne_of_gt hd
      by_cases h2 : d < MIN_AIM_DISTANCE
      · simp only [h1, h2, if_false, if_true]
        rw [scaled_horizSq t d MIN_AIM_DISTANCE hd2 hdne]
        norm_num [MIN_AIM_DISTANCE, MAX_AIM_DISTANCE, AIM_PLANE_HEIGHT]
      · by_cases h3 : MAX_AIM_DISTANCE < d
        · simp only [h1, h2, h3, if_false, if_true]
          rw [scaled_horizSq t d MAX_AIM_DISTANCE hd2 hdne]
          norm_num [MIN_AIM_DISTANCE, MAX_AIM_DISTANCE, AIM_PLANE_HEIGHT]
        · simp only [h1, h2, h3, if_false]
          have hx : horizSq ⟨t.x, AIM_PLANE_HEIGHT, t.z⟩ = d ^ 2 := by
            unfold horizSq
            exact hd2.symm
          rw [hx]
          have hge : MIN_AIM_DISTANCE ≤ d := not_lt.mp h2
          have hle : d ≤ MAX_AIM_DISTANCE := not_lt.mp h3
          refine ⟨?_, ?_, trivial⟩
          · exact pow_le_pow_left₀ (by norm_num [MIN_AIM_DISTANCE]) hge 2
          · exact pow_le_pow_left₀ hd0 hle 2
  · intro h3
    have h1 : ¬ d < 0.0001 := not_lt.mpr (le_of_lt (lt_trans (by norm_num [MAX_AIM_DISTANCE]) h3))
    have h2 : ¬ d < MIN_AIM_DISTANCE :=
      not_lt.mpr (le_of_lt (lt_trans (by norm_num [MIN_AIM_DISTANCE, MAX_AIM_DISTANCE]) h3))
    rw [hc]
    simp only [h1, h2, h3, if_false, if_true]
  · intro h1
    rw [hc]
    simp only [h1, if_true]
  · intro s hs
    unfold setAimTargetFromPoint
    simp [hs]

/-- C6 witness: the point (0, 0, 200), 200 units away horizontally, is
stored as (0, AIM_PLANE_HEIGHT, 85): clamped to distance exactly 85 in the
same horizontal direction. -/
theorem aim_target_clamped_witness :
    clampAimTarget aimOracle ⟨0, 0, 200⟩ = ⟨0, AIM_PLANE_HEIGHT, 85⟩ := by
  have h := (aim_target_clamped aimOracle ⟨0, 0, 200⟩ 200
    (by norm_num [aimOracle, sampleOracles, horizSq])
    (by norm_num) (by norm_num)).2.1 (by norm_num [MAX_AIM_DISTANCE])
  rw [h]
  norm_num [MAX_AIM_DISTANCE]

/- ## Event accounting and state-preservation lemmas (toward C2 and C9) -/

lemma coreKeeps_refl (s : Sim) : CoreKeeps s s := ⟨rfl, rfl, rfl, rfl, rfl⟩

lemma coreKeeps_trans {s t u : Sim} (h1 : CoreKeeps s t) (h2 : CoreKeeps t u) :
    CoreKeeps s u := by
  obtain ⟨a1, a2, a3, a4, a5⟩ := h1
  obtain ⟨b1, b2, b3, b4, b5⟩ := h2
  exact ⟨b1.trans a1, b2.trans a2, b3.trans a3, b4.trans a4, b5.trans a5⟩

lemma deployCount_append (a b : List GEvent) :
    deployCount (a ++ b) = deployCount a + deployCount b := by
  unfold deployCount
  exact List.countP_append _ _ _

lemma emit_core (e : GEvent) (he : e.isDeployBonus = false) (s : Sim) :
    CoreKeeps s (emit e s) := by
  refine ⟨rfl, rfl, rfl, rfl, ?_⟩
  simp [emit, deployCount_append, deployCount, he]

lemma pushBridgeStats_core (s : Sim) : CoreKeeps s (pushBridgeStats s) := by
  refine ⟨rfl, rfl, rfl, rfl, ?_⟩
  simp [pushBridgeStats, emit, deployCount_append, deployCount, GEvent.isDeployBonus]

lemma setStatus_core (m : String) (s : Sim) : CoreKeeps s (setStatus m s) := by
  refine ⟨rfl, rfl, rfl, rfl, ?_⟩
  simp [setStatus, pushBridgeStats, emit, deployCount_append, deployCount, GEvent.isDeployBonus]

lemma submitScore_core (v : ℤ) (s : Sim) : CoreKeeps s (submitScore v s) := by
  unfold CoreKeeps submitScore emit
  dsimp only
  split_ifs <;>
    simp [deployCount_append, deployCount, GEvent.isDeployBonus]

lemma killPlayer_core (reason : String) (s : Sim) : CoreKeeps s (killPlayer reason s) := by
  unfold CoreKeeps killPlayer submitScore setStatus pushBridgeStats emit
  dsimp only
  split_ifs <;>
    simp [deployCount_append, deployCount, GEvent.isDeployBonus]

lemma applyPowerUp_core (p : PowerUpType) (s : Sim) : CoreKeeps s (applyPowerUp p s) := by
  unfold CoreKeeps applyPowerUp setStatus pushBridgeStats emit
  cases p <;>
    simp [deployCount_append, deployCount, GEvent.isDeployBonus]

lemma spawnPowerUp_core (o : Oracles) (p : Vec3) (s : Sim) :
    CoreKeeps s (spawnPowerUp o p s) := by
  unfold spawnPowerUp nextRand
  exact ⟨rfl, rfl, rfl, rfl, rfl⟩

lemma deathEffects_core (o : Oracles) (e : Enemy) (s : Sim) :
    CoreKeeps s (deathEffects o e s) := by
  unfold CoreKeeps deathEffects spawnPowerUp nextRand pushBridgeStats emit
  dsimp only
  split_ifs <;>
    simp [deployCount_append, deployCount, GEvent.isDeployBonus]

lemma scheduleNextSpawn_core (o : Oracles) (f : Bool) (s : Sim) :
    CoreKeeps s (scheduleNextSpawn o f s) := by
  unfold CoreKeeps scheduleNextSpawn nextRand
  dsimp only
  split_ifs <;> exact ⟨rfl, rfl, rfl, rfl, rfl⟩

lemma spawnBullet_core (o : Oracles) (s : Sim) : CoreKeeps s (spawnBullet o s) := by
  unfold CoreKeeps spawnBullet
  dsimp only
  split_ifs <;> exact ⟨rfl, rfl, rfl, rfl, rfl⟩

lemma updateFire_core (o : Oracles) (dt : ℚ) (s : Sim) : CoreKeeps s (updateFire o dt s) := by
  unfold CoreKeeps updateFire spawnBullet
  dsimp only
  split_ifs <;> exact ⟨rfl, rfl, rfl, rfl, rfl⟩

lemma updatePowerTimers_core (dt : ℚ) (s : Sim) : CoreKeeps s (updatePowerTimers dt s) := by
  unfold CoreKeeps updatePowerTimers pushBridgeStats emit
  dsimp only
  split_ifs <;>
    simp [deployCount_append, deployCount, GEvent.isDeployBonus]

lemma updateScore_core (dt : ℚ) (s : Sim) : CoreKeeps s (updateScore dt s) := by
  unfold CoreKeeps updateScore pushBridgeStats emit
  dsimp only
  split_ifs <;>
    simp [deployCount_append, deployCount, GEvent.isDeployBonus]

lemma updateKeyboardAim_core (o : Oracles) (dt : ℚ) (s : Sim) :
    CoreKeeps s (updateKeyboardAim o dt s)
    ∧ (updateKeyboardAim o dt s).selectionActive = s.selectionActive
    ∧ (updateKeyboardAim o dt s).gameState = s.gameState := by
  unfold CoreKeeps updateKeyboardAim
  dsimp only
  split_ifs <;> exact ⟨⟨rfl, rfl, rfl, rfl, rfl⟩, rfl, rfl⟩

lemma explodeList_core (o : Oracles) (p : Vec3) (L : List Enemy) :
    ∀ s : Sim, CoreKeeps s (explodeList o p L s).2
      ∧ (explodeList o p L s).1.length ≤ L.length := by
  induction L with
  | nil => intro s; exact ⟨coreKeeps_refl s, by simp [explodeList]⟩
  | cons e rest ih =>
    intro s
    by_cases hc : inExplosionRadius p e
    · obtain ⟨h1, h2⟩ := ih (deathEffects o { e with health := 0 } s)
      refine ⟨?_, ?_⟩
      · simp only [explodeList, hc, if_true]
        exact coreKeeps_trans (deathEffects_core o _ s) h1
      · simp only [explodeList, hc, if_true]
        exact le_trans h2 (Nat.le_succ _)
    · obtain ⟨h1, h2⟩ := ih s
      refine ⟨?_, ?_⟩
      · simp only [explodeList, hc, Bool.false_eq_true, if_false]
        exact h1
      · simp only [explodeList, hc, Bool.false_eq_true, if_false, List.length_cons]
        exact Nat.succ_le_succ h2

lemma bulletScanGo_core (o : Oracles) (b : Bullet) (L : List Enemy) :
    ∀ (acc : List Enemy) (s : Sim),
      CoreKeeps s (bulletScanGo o b acc L s).2.1
      ∧ (bulletScanGo o b acc L s).1.length ≤ acc.length + L.length := by
  induction L with
  | nil =>
    intro acc s
    exact ⟨coreKeeps_refl s, by simp [bulletScanGo]⟩
  | cons e rest ih =>
    intro acc s
    by_cases hh : hitTest b e
    · simp only [bulletScanGo, hh, if_true]
      by_cases hd : e.health - (if 0 < s.explosiveTimer then 2 else 1) ≤ 0
      · rw [if_pos hd]
        by_cases hx : 0 < s.explosiveTimer
        · rw [if_pos hx]
          obtain ⟨h1, h2⟩ := explodeList_core o e.pos (acc ++ rest) (deathEffects o _ s)
          refine ⟨coreKeeps_trans (deathEffects_core o _ s) h1, ?_⟩
          have hlen : (acc ++ rest).length = acc.length + rest.length := List.length_append acc rest
          simp only [List.length_cons]
          omega
        · rw [if_neg hx]
          refine ⟨deathEffects_core o _ s, ?_⟩
          have hlen : (acc ++ rest).length = acc.length + rest.length := List.length_append acc rest
          simp only [List.length_cons]
          omega
      · rw [if_neg hd]
        refine ⟨coreKeeps_refl s, ?_⟩
        have hlen : (acc ++ ({ e with health := e.health - (if 0 < s.explosiveTimer then 2 else 1) } :: rest)).length
            = acc.length + (rest.length + 1) := by
          simp [List.length_append]
        simp only [List.length_cons]
        omega
    · simp only [bulletScanGo, hh, Bool.false_eq_true, if_false]
      obtain ⟨h1, h2⟩ := ih (acc ++ [e]) s
      refine ⟨h1, ?_⟩
      have hlen : (acc ++ [e]).length = acc.length + 1 := by simp
      simp only [List.length_cons]
      omega

lemma goBullets_facts (o : Oracles) (dt : ℚ) (L : List Bullet) :
    ∀ s : Sim,
      (goBullets o dt L s).2.enemiesToSpawn = s.enemiesToSpawn
      ∧ (goBullets o dt L s).2.waveTuning = s.waveTuning
      ∧ (goBullets o dt L s).2.wave = s.wave
      ∧ (goBullets o dt L s).2.enemies.length ≤ s.enemies.length
      ∧ deployCount (goBullets o dt L s).2.events = deployCount s.events := by
  induction L with
  | nil => intro s; exact ⟨rfl, rfl, rfl, le_refl _, rfl⟩
  | cons b rest ih =>
    intro s
    simp only [goBullets]
    split
    · exact ih s
    · obtain ⟨⟨c1, c2, c3, c4, c5⟩, hlen⟩ := bulletScanGo_core o
        { b with pos := addScaled b.pos b.velocity dt, life := b.life - dt } s.enemies [] s
      obtain ⟨i1, i2, i3, i4, i5⟩ := ih
        { (bulletScanGo o { b with pos := addScaled b.pos b.velocity dt, life := b.life - dt }
            [] s.enemies s).2.1 with
          enemies := (bulletScanGo o
            { b with pos := addScaled b.pos b.velocity dt, life := b.life - dt }
            [] s.enemies s).1 }
      refine ⟨i1.trans c1, i2.trans c2, i3.trans c3, ?_, i5.trans c5⟩
      refine le_trans i4 ?_
      simpa using hlen

lemma updateBullets_facts (o : Oracles) (dt : ℚ) (s : Sim) :
    (updateBullets o dt s).enemiesToSpawn = s.enemiesToSpawn
    ∧ (updateBullets o dt s).waveTuning = s.waveTuning
    ∧ (updateBullets o dt s).wave = s.wave
    ∧ (updateBullets o dt s).enemies.length ≤ s.enemies.length
    ∧ deployCount (updateBullets o dt s).events = deployCount s.events := by
  obtain ⟨h1, h2, h3, h4, h5⟩ := goBullets_facts o dt s.bullets.reverse s
  exact ⟨h1, h2, h3, h4, h5⟩

lemma goEnemies_facts (o : Oracles) (dt elapsed : ℚ) (L : List Enemy) :
    ∀ s : Sim,
      (goEnemies o dt elapsed L s).2.enemiesToSpawn = s.enemiesToSpawn
      ∧ (goEnemies o dt elapsed L s).2.waveTuning = s.waveTuning
      ∧ (goEnemies o dt elapsed L s).2.wave = s.wave
      ∧ (goEnemies o dt elapsed L s).2.enemies = s.enemies
      ∧ deployCount (goEnemies o dt elapsed L s).2.events = deployCount s.events
      ∧ (goEnemies o dt elapsed L s).1.length ≤ L.length := by
  induction L with
  | nil => intro s; exact ⟨rfl, rfl, rfl, rfl, rfl, le_refl _⟩
  | cons e rest ih =>
    intro s
    simp only [goEnemies]
    split
    · split
      · obtain ⟨s1, s2, s3, s4, s5, s6⟩ :=
          ih (pushBridgeStats (setStatus "Shield absorbed damage!"
            { s with shieldCharges := s.shieldCharges - 1 }))
        have hcore : CoreKeeps { s with shieldCharges := s.shieldCharges - 1 }
            (pushBridgeStats (setStatus "Shield absorbed damage!"
              { s with shieldCharges := s.shieldCharges - 1 })) :=
          coreKeeps_trans (setStatus_core _ _) (pushBridgeStats_core _)
        obtain ⟨c1, c2, c3, c4, c5⟩ := hcore
        exact ⟨s1.trans c1, s2.trans c2, s3.trans c3, s4.trans c4, s5.trans c5,
          le_trans s6 (Nat.le_succ _)⟩
      · obtain ⟨c1, c2, c3, c4, c5⟩ := killPlayer_core "breach" s
        exact ⟨c1, c2, c3, c4, c5, le_refl _⟩
    · obtain ⟨s1, s2, s3, s4, s5, s6⟩ := ih s
      refine ⟨s1, s2, s3, s4, s5, ?_⟩
      simp only [List.length_cons]
      exact Nat.succ_le_succ s6

lemma updateEnemies_facts (o : Oracles) (dt : ℚ) (s : Sim) :
    (updateEnemies o dt s).enemiesToSpawn = s.enemiesToSpawn
    ∧ (updateEnemies o dt s).waveTuning = s.waveTuning
    ∧ (updateEnemies o dt s).wave = s.wave
    ∧ (updateEnemies o dt s).enemies.length ≤ s.enemies.length
    ∧ deployCount (updateEnemies o dt s).events = deployCount s.events := by
  obtain ⟨h1, h2, h3, h4, h5, h6⟩ := goEnemies_facts o dt s.elapsedTime s.enemies.reverse s
  refine ⟨h1, h2, h3, ?_, h5⟩
  unfold updateEnemies
  simp only [List.length_reverse]
  simpa using h6

lemma goPowerUps_facts (dt : ℚ) (L : List PowerUp) :
    ∀ s : Sim,
      (goPowerUps dt L s).2.enemiesToSpawn = s.enemiesToSpawn
      ∧ (goPowerUps dt L s).2.waveTuning = s.waveTuning
      ∧ (goPowerUps dt L s).2.wave = s.wave
      ∧ (goPowerUps dt L s).2.enemies = s.enemies
      ∧ deployCount (goPowerUps dt L s).2.events = deployCount s.events := by
  induction L with
  | nil => intro s; exact ⟨rfl, rfl, rfl, rfl, rfl⟩
  | cons p rest ih =>
    intro s
    simp only [goPowerUps]
    split
    · exact ih s
    · split
      · obtain ⟨s1, s2, s3, s4, s5⟩ := ih (applyPowerUp p.type s)
        obtain ⟨c1, c2, c3, c4, c5⟩ := applyPowerUp_core p.type s
        exact ⟨s1.trans c1, s2.trans c2, s3.trans c3, s4.trans c4, s5.trans c5⟩
      · exact ih s

lemma updatePowerUps_facts (dt : ℚ) (s : Sim) :
    (updatePowerUps dt s).enemiesToSpawn = s.enemiesToSpawn
    ∧ (updatePowerUps dt s).waveTuning = s.waveTuning
    ∧ (updatePowerUps dt s).wave = s.wave
    ∧ (updatePowerUps dt s).enemies = s.enemies
    ∧ deployCount (updatePowerUps dt s).events = deployCount s.events := by
  obtain ⟨h1, h2, h3, h4, h5⟩ := goPowerUps_facts dt s.powerUps.reverse s
  exact ⟨h1, h2, h3, h4, h5⟩

lemma spawnEnemy_facts (o : Oracles) (s : Sim) :
    (spawnEnemy o s).enemiesToSpawn = s.enemiesToSpawn
    ∧ (spawnEnemy o s).waveTuning = s.waveTuning
    ∧ (spawnEnemy o s).wave = s.wave
    ∧ (spawnEnemy o s).enemies.length = s.enemies.length + 1
    ∧ deployCount (spawnEnemy o s).events = deployCount s.events
    ∧ (spawnEnemy o s).gameState = s.gameState := by
  unfold spawnEnemy nextRand
  dsimp only
  refine ⟨rfl, rfl, rfl, ?_, ?_, rfl⟩
  · simp [pushBridgeStats, emit]
  · simp [pushBridgeStats, emit, deployCount_append, deployCount, GEvent.isDeployBonus]

lemma pushBridgeStats_gameState (s : Sim) : (pushBridgeStats s).gameState = s.gameState := rfl

lemma scheduleNextSpawn_gameState (o : Oracles) (f : Bool) (s : Sim) :
    (scheduleNextSpawn o f s).gameState = s.gameState := by
  unfold scheduleNextSpawn nextRand
  dsimp only
  split_ifs <;> rfl

lemma beginWave_facts (o : Oracles) (n : ℕ) (f : Bool) (s : Sim) :
    (beginWave o n f s).wave = n
    ∧ (beginWave o n f s).waveTuning = getWaveTuning n (o.powF n)
    ∧ (beginWave o n f s).enemiesToSpawn = (getWaveTuning n (o.powF n)).count
    ∧ (beginWave o n f s).enemies = s.enemies
    ∧ deployCount (beginWave o n f s).events = deployCount s.events
    ∧ (beginWave o n f s).gameState = s.gameState := by
  unfold beginWave
  dsimp only
  have hcore : CoreKeeps
      { s with wave := n, waveTuning := getWaveTuning n (o.powF n),
               enemiesToSpawn := (getWaveTuning n (o.powF n)).count, intermission := 0 }
      (pushBridgeStats (setStatus ("Wave " ++ toString n ++ ": "
          ++ toString (getWaveTuning n (o.powF n)).count ++ " hostiles inbound."
          ++ if f then " Aim with mouse or arrows/WASD, keep the gun alive." else "")
        (scheduleNextSpawn o true
          { s with wave := n, waveTuning := getWaveTuning n (o.powF n),
                   enemiesToSpawn := (getWaveTuning n (o.powF n)).count, intermission := 0 }))) := by
    refine coreKeeps_trans (coreKeeps_trans (scheduleNextSpawn_core o true _) (setStatus_core _ _))
      (pushBridgeStats_core _)
  obtain ⟨c1, c2, c3, c4, c5⟩ := hcore
  refine ⟨c3.trans rfl, c2.trans rfl, c1.trans rfl, c4.trans rfl, c5.trans rfl, ?_⟩
  rw [pushBridgeStats_gameState, setStatus_gameState, scheduleNextSpawn_gameState]

lemma getWaveTuning_count_nonneg (n : ℕ) (powW : ℚ) (hp : 0 ≤ powW) :
    0 ≤ (getWaveTuning n powW).count := by
  unfold getWaveTuning jsRound
  dsimp only
  refine Int.floor_nonneg.mpr ?_
  have h1 : (0 : ℚ) ≤ (n : ℚ) * 2.1 := mul_nonneg (Nat.cast_nonneg n) (by norm_num)
  have h2 : (0 : ℚ) ≤ powW * 0.25 := mul_nonneg hp (by norm_num)
  linarith

lemma spawnStep_facts (o : Oracles) (s1 : Sim) :
    (spawnStep o s1).enemiesToSpawn = s1.enemiesToSpawn - 1
    ∧ (spawnStep o s1).waveTuning = s1.waveTuning
    ∧ (spawnStep o s1).wave = s1.wave
    ∧ (spawnStep o s1).enemies.length = s1.enemies.length + 1
    ∧ deployCount (spawnStep o s1).events = deployCount s1.events := by
  obtain ⟨f1, f2, f3, f4, f5, f6⟩ := spawnEnemy_facts o s1
  unfold spawnStep
  dsimp only
  split
  · obtain ⟨k1, k2, k3, k4, k5⟩ := scheduleNextSpawn_core o false
      { spawnEnemy o s1 with enemiesToSpawn := (spawnEnemy o s1).enemiesToSpawn - 1 }
    refine ⟨?_, ?_, ?_, ?_, ?_⟩
    · rw [k1]; dsimp only; rw [f1]
    · rw [k2]; dsimp only; rw [f2]
    · rw [k3]; dsimp only; rw [f3]
    · rw [k4]; dsimp only; rw [f4]
    · rw [k5]; dsimp only; rw [f5]
  · exact ⟨by dsimp only; rw [f1], by dsimp only; rw [f2], by dsimp only; rw [f3],
      by dsimp only; rw [f4], by dsimp only; rw [f5]⟩

lemma spawnWaveIfReady_facts (o : Oracles) (dt : ℚ) (s : Sim)
    (hpow : ∀ n : ℕ, 0 ≤ o.powF n) :
    ((0 ≤ s.enemiesToSpawn ∧ waveSum s ≤ s.waveTuning.count) →
      0 ≤ (spawnWaveIfReady o dt s).enemiesToSpawn
      ∧ waveSum (spawnWaveIfReady o dt s) ≤ (spawnWaveIfReady o dt s).waveTuning.count)
    ∧ ((spawnWaveIfReady o dt s).wave = s.wave → waveSum (spawnWaveIfReady o dt s) ≤ waveSum s)
    ∧ deployCount (spawnWaveIfReady o dt s).events = deployCount s.events := by
  unfold spawnWaveIfReady
  dsimp only
  split_ifs with c1 c2 c3 c5 c6 c7
  · exact ⟨fun hinv => ⟨hinv.1, hinv.2⟩, fun _ => le_refl _, rfl⟩
  · obtain ⟨p1, p2, p3, p4, p5⟩ := spawnStep_facts o { s with spawnCooldown := s.spawnCooldown - dt }
    refine ⟨fun hinv => ⟨?_, ?_⟩, fun _ => ?_, ?_⟩
    · rw [p1]; dsimp only; omega
    · unfold waveSum
      rw [p1, p2, p4]
      dsimp only
      have := hinv.2
      unfold waveSum at this
      omega
    · unfold waveSum
      rw [p1, p4]
      dsimp only
      omega
    · rw [p5]
  · exact ⟨fun hinv => ⟨hinv.1, hinv.2⟩, fun _ => le_refl _, rfl⟩
  · refine ⟨fun hinv => ⟨?_, ?_⟩, fun _ => ?_, ?_⟩
    · obtain ⟨k1, k2, k3, k4, k5⟩ :=
        coreKeeps_trans
          (emit_core (GEvent.tokenBonus BonusSource.waveClear
            (WAVE_CLEAR_BONUS + ⌊(s.wave : ℚ) * 1.5⌋)) rfl
            { s with intermission := intermissionDurationForWave (s.wave + 1) })
          (setStatus_core _ _)
      rw [k1]; exact hinv.1
    · obtain ⟨k1, k2, k3, k4, k5⟩ :=
        coreKeeps_trans
          (emit_core (GEvent.tokenBonus BonusSource.waveClear
            (WAVE_CLEAR_BONUS + ⌊(s.wave : ℚ) * 1.5⌋)) rfl
            { s with intermission := intermissionDurationForWave (s.wave + 1) })
          (setStatus_core _ _)
      unfold waveSum
      rw [k1, k2, k4]
      exact hinv.2
    · obtain ⟨k1, k2, k3, k4, k5⟩ :=
        coreKeeps_trans
          (emit_core (GEvent.tokenBonus BonusSource.waveClear
            (WAVE_CLEAR_BONUS + ⌊(s.wave : ℚ) * 1.5⌋)) rfl
            { s with intermission := intermissionDurationForWave (s.wave + 1) })
          (setStatus_core _ _)
      unfold waveSum
      rw [k1, k4]
    · obtain ⟨k1, k2, k3, k4, k5⟩ :=
        coreKeeps_trans
          (emit_core (GEvent.tokenBonus BonusSource.waveClear
            (WAVE_CLEAR_BONUS + ⌊(s.wave : ℚ) * 1.5⌋)) rfl
            { s with intermission := intermissionDurationForWave (s.wave + 1) })
          (setStatus_core _ _)
      exact k5
  · obtain ⟨b1, b2, b3, b4, b5, b6⟩ :=
      beginWave_facts o (s.wave + 1) false { s with intermission := s.intermission - dt }
    refine ⟨fun hinv => ⟨?_, ?_⟩, fun hw => ?_, ?_⟩
    · rw [b3]
      exact getWaveTuning_count_nonneg (s.wave + 1) (o.powF (s.wave + 1)) (hpow (s.wave + 1))
    · unfold waveSum
      rw [b2, b3, b4]
      dsimp only
      have hz : s.enemies.length = 0 := c5.1
      omega
    · rw [b1] at hw
      omega
    · rw [b5]
  · exact ⟨fun hinv => ⟨hinv.1, hinv.2⟩, fun _ => le_refl _, rfl⟩
  · exact ⟨fun hinv => ⟨hinv.1, hinv.2⟩, fun _ => le_refl _, rfl⟩

lemma runCombat_facts (o : Oracles) (dt : ℚ) (s : Sim) (hpow : ∀ n : ℕ, 0 ≤ o.powF n) :
    ((0 ≤ s.enemiesToSpawn ∧ waveSum s ≤ s.waveTuning.count) →
      0 ≤ (runCombat o dt s).enemiesToSpawn
      ∧ waveSum (runCombat o dt s) ≤ (runCombat o dt s).waveTuning.count)
    ∧ ((runCombat o dt s).wave = s.wave → waveSum (runCombat o dt s) ≤ waveSum s)
    ∧ deployCount (runCombat o dt s).events = deployCount s.events := by
  obtain ⟨w1, w2, w3⟩ := spawnWaveIfReady_facts o dt s hpow
  unfold runCombat
  set q2 : Sim := spawnWaveIfReady o dt s with hq2
  set q3 : Sim := updateFire o dt q2 with hq3
  set q4 : Sim := updateBullets o dt q3 with hq4
  set q5 : Sim := updateEnemies o dt q4 with hq5
  set q6 : Sim := updatePowerUps dt q5 with hq6
  set q7 : Sim := updatePowerTimers dt q6 with hq7
  obtain ⟨a1, a2, a3, a4, a5⟩ := updateFire_core o dt q2
  obtain ⟨b1, b2, b3, b4, b5⟩ := updateBullets_facts o dt q3
  obtain ⟨c1, c2, c3, c4, c5⟩ := updateEnemies_facts o dt q4
  obtain ⟨d1, d2, d3, d4, d5⟩ := updatePowerUps_facts dt q5
  obtain ⟨e1, e2, e3, e4, e5⟩ := updatePowerTimers_core dt q6
  obtain ⟨g1, g2, g3, g4, g5⟩ := updateScore_core dt q7
  rw [← hq3] at a1 a2 a3 a4 a5
  rw [← hq4] at b1 b2 b3 b4 b5
  rw [← hq5] at c1 c2 c3 c4 c5
  rw [← hq6] at d1 d2 d3 d4 d5
  rw [← hq7] at e1 e2 e3 e4 e5
  have t1 : (updateScore dt q7).enemiesToSpawn = q2.enemiesToSpawn :=
    g1.trans (e1.trans (d1.trans (c1.trans (b1.trans a1))))
  have t2 : (updateScore dt q7).waveTuning = q2.waveTuning :=
    g2.trans (e2.trans (d2.trans (c2.trans (b2.trans a2))))
  have t3 : (updateScore dt q7).wave = q2.wave :=
    g3.trans (e3.trans (d3.trans (c3.trans (b3.trans a3))))
  have t5 : deployCount (updateScore dt q7).events = deployCount q2.events :=
    g5.trans (e5.trans (d5.trans (c5.trans (b5.trans a5))))
  have t4 : (updateScore dt q7).enemies.length ≤ q2.enemies.length := by
    have l8 : (updateScore dt q7).enemies.length = q6.enemies.length := by
      rw [g4, e4]
    have l6 : q6.enemies.length = q5.enemies.length := by rw [d4]
    have l3 : q3.enemies.length = q2.enemies.length := by rw [a4]
    omega
  refine ⟨fun hinv => ?_, fun hw => ?_, ?_⟩
  · obtain ⟨i1, i2⟩ := w1 hinv
    refine ⟨?_, ?_⟩
    · rw [t1]; exact i1
    · unfold waveSum
      rw [t1, t2]
      unfold waveSum at i2
      omega
  · have hw2 : q2.wave = s.wave := by rw [← t3]; exact hw
    have hsum2 := w2 hw2
    unfold waveSum
    unfold waveSum at hsum2
    rw [t1]
    omega
  · exact t5.trans w3

/-- C2: on every tick taken while a machine is selected and the session is
Playing, the invariant `0 ≤ enemiesToSpawn ∧ enemiesToSpawn + |enemies| ≤
waveTuning.count` is preserved, and whenever the tick does not begin a new
wave (the wave number is unchanged) the sum `enemiesToSpawn + |enemies|`
does not increase — it stays constant on a spawn (one quota unit becomes
one live enemy) and strictly drops on every enemy removal, reaching 0 when
the wave is fully spawned and cleared.  The pow oracle is assumed
nonnegative, as `Math.pow(w, 1.05) ≥ 0`. -/
theorem tick_wave_invariant (o : Oracles) (dtRaw : ℚ) (s : Sim)
    (hpow : ∀ n : ℕ, 0 ≤ o.powF n)
    (hsel : s.selectionActive = false) (hplay : s.gameState = GameState.playing)
    (hinv : 0 ≤ s.enemiesToSpawn ∧ waveSum s ≤ s.waveTuning.count) :
    (0 ≤ (tick o dtRaw s).enemiesToSpawn
      ∧ waveSum (tick o dtRaw s) ≤ (tick o dtRaw s).waveTuning.count)
    ∧ ((tick o dtRaw s).wave = s.wave → waveSum (tick o dtRaw s) ≤ waveSum s) := by
  unfold tick
  dsimp only
  obtain ⟨⟨a1, a2, a3, a4, a5⟩, asel, astate⟩ := updateKeyboardAim_core o (min dtRaw 0.033)
    { s with elapsedTime := s.elapsedTime + min dtRaw 0.033 }
  have hc : (updateKeyboardAim o (min dtRaw 0.033)
        { s with elapsedTime := s.elapsedTime + min dtRaw 0.033 }).selectionActive = false
      ∧ (updateKeyboardAim o (min dtRaw 0.033)
        { s with elapsedTime := s.elapsedTime + min dtRaw 0.033 }).gameState
          = GameState.playing :=
    ⟨asel.trans hsel, astate.trans hplay⟩
  rw [if_pos hc]
  obtain ⟨r1, r2, r3⟩ := runCombat_facts o (min dtRaw 0.033)
    (updateKeyboardAim o (min dtRaw 0.033)
      { s with elapsedTime := s.elapsedTime + min dtRaw 0.033 }) hpow
  have hinvK : 0 ≤ (updateKeyboardAim o (min dtRaw 0.033)
        { s with elapsedTime := s.elapsedTime + min dtRaw 0.033 }).enemiesToSpawn
      ∧ waveSum (updateKeyboardAim o (min dtRaw 0.033)
          { s with elapsedTime := s.elapsedTime + min dtRaw 0.033 })
        ≤ (updateKeyboardAim o (min dtRaw 0.033)
          { s with elapsedTime := s.elapsedTime + min dtRaw 0.033 }).waveTuning.count := by
    constructor
    · rw [a1]; exact hinv.1
    · unfold waveSum
      rw [a1, a2, a4]
      exact hinv.2
  refine ⟨r1 hinvK, fun hw => ?_⟩
  have hw' : (runCombat o (min dtRaw 0.033)
        (updateKeyboardAim o (min dtRaw 0.033)
          { s with elapsedTime := s.elapsedTime + min dtRaw 0.033 })).wave
      = (updateKeyboardAim o (min dtRaw 0.033)
          { s with elapsedTime := s.elapsedTime + min dtRaw 0.033 }).wave := by
    rw [a3]; exact hw
  have hsum := r2 hw'
  have hK : waveSum (updateKeyboardAim o (min dtRaw 0.033)
      { s with elapsedTime := s.elapsedTime + min dtRaw 0.033 }) = waveSum s := by
    unfold waveSum
    rw [a1, a4]
  rw [hK] at hsum
  exact hsum

/-- C2 witness: a concrete Playing state with an exhausted wave (no quota,
no enemies, count 7) keeps the invariant through one tick and does not
increase the sum. -/
theorem tick_wave_invariant_witness :
    (0 ≤ (tick sampleOracles 0.01 sampleSim).enemiesToSpawn
      ∧ waveSum (tick sampleOracles 0.01 sampleSim)
        ≤ (tick sampleOracles 0.01 sampleSim).waveTuning.count)
    ∧ ((tick sampleOracles 0.01 sampleSim).wave = sampleSim.wave →
        waveSum (tick sampleOracles 0.01 sampleSim) ≤ waveSum sampleSim) :=
  tick_wave_invariant sampleOracles 0.01 sampleSim
    (fun n => by norm_num [sampleOracles]) rfl rfl
    (by constructor
        · norm_num [sampleSim]
        · show waveSum sampleSim ≤ sampleSim.waveTuning.count
          rw [show sampleSim.waveTuning = getWaveTuning 1 1 from rfl, getWaveTuning_wave1_values]
          norm_num [waveSum, sampleSim])

/- ## Deployment-bonus accounting (toward C9) -/

lemma spawnWaveIfReady_deploy (o : Oracles) (dt : ℚ) (s : Sim) :
    deployCount (spawnWaveIfReady o dt s).events = deployCount s.events := by
  unfold spawnWaveIfReady
  dsimp only
  split_ifs with c1 c2 c3 c5 c6 c7
  · rfl
  · exact (spawnStep_facts o _).2.2.2.2
  · rfl
  · obtain ⟨k1, k2, k3, k4, k5⟩ :=
      coreKeeps_trans
        (emit_core (GEvent.tokenBonus BonusSource.waveClear
          (WAVE_CLEAR_BONUS + ⌊(s.wave : ℚ) * 1.5⌋)) rfl
          { s with intermission := intermissionDurationForWave (s.wave + 1) })
        (setStatus_core _ _)
    exact k5
  · exact (beginWave_facts o (s.wave + 1) false _).2.2.2.2.1
  · rfl
  · rfl

lemma runCombat_deploy (o : Oracles) (dt : ℚ) (s : Sim) :
    deployCount (runCombat o dt s).events = deployCount s.events := by
  unfold runCombat
  set q2 : Sim := spawnWaveIfReady o dt s with hq2
  set q3 : Sim := updateFire o dt q2 with hq3
  set q4 : Sim := updateBullets o dt q3 with hq4
  set q5 : Sim := updateEnemies o dt q4 with hq5
  set q6 : Sim := updatePowerUps dt q5 with hq6
  set q7 : Sim := updatePowerTimers dt q6 with hq7
  have a5 := (updateFire_core o dt q2).2.2.2.2
  have b5 := (updateBullets_facts o dt q3).2.2.2.2
  have c5 := (updateEnemies_facts o dt q4).2.2.2.2
  have d5 := (updatePowerUps_facts dt q5).2.2.2.2
  have e5 := (updatePowerTimers_core dt q6).2.2.2.2
  have g5 := (updateScore_core dt q7).2.2.2.2
  rw [← hq3] at a5
  rw [← hq4] at b5
  rw [← hq5] at c5
  rw [← hq6] at d5
  rw [← hq7] at e5
  have hcomb := g5.trans (e5.trans (d5.trans (c5.trans (b5.trans a5))))
  rw [hq2] at hcomb
  exact hcomb.trans (spawnWaveIfReady_deploy o dt s)

lemma beginWave_deploy (o : Oracles) (n : ℕ) (f : Bool) (s : Sim) :
    deployCount (beginWave o n f s).events = deployCount s.events :=
  (beginWave_facts o n f s).2.2.2.2.1

lemma setStatus_deploy (m : String) (s : Sim) :
    deployCount (setStatus m s).events = deployCount s.events :=
  (setStatus_core m s).2.2.2.2

lemma pushBridgeStats_deploy (s : Sim) :
    deployCount (pushBridgeStats s).events = deployCount s.events :=
  (pushBridgeStats_core s).2.2.2.2

lemma resetGame_deploy (o : Oracles) (s : Sim) :
    deployCount (resetGame o s).events = deployCount s.events := by
  unfold resetGame
  split
  · exact (emit_core GEvent.bridgePush rfl _).2.2.2.2
  · dsimp only
    rw [pushBridgeStats_deploy, setStatus_deploy, beginWave_deploy]

/-- C9: the deployment bonus (`grantTokenBonus(DEPLOYMENT_BONUS)`) is fired
only by the `startSession` game action: a restart (`restartGame`) emits no
deployment bonus, a simulation tick emits none (its only `grantTokenBonus`
call is the wave-clear bonus), and one `startSession` emits exactly one
(none when no turret is selected, since the action then no-ops) — so
across one session the bonus is emitted at most once, on the initial start. -/
theorem deployment_bonus_only_on_start (o : Oracles) (dtRaw : ℚ) (s : Sim) :
    deployCount (restartGame o s).events = deployCount s.events
    ∧ deployCount (tick o dtRaw s).events = deployCount s.events
    ∧ deployCount (startSession o s).events
        = deployCount s.events + (if s.hasTurret then 1 else 0) := by
  refine ⟨?_, ?_, ?_⟩
  · unfold restartGame
    exact ((emit_core GEvent.bridgePush rfl _).2.2.2.2).trans (resetGame_deploy o s)
  · unfold tick
    dsimp only
    have a5 := (updateKeyboardAim_core o (min dtRaw 0.033)
      { s with elapsedTime := s.elapsedTime + min dtRaw 0.033 }).1.2.2.2.2
    split
    · exact (runCombat_deploy o (min dtRaw 0.033) _).trans a5
    · exact a5
  · unfold startSession
    split
    · simp_all
    · rename_i h
      have h' : s.hasTurret = true := by
        cases hts : s.hasTurret
        · exact absurd hts h
        · rfl
      rw [h', if_pos rfl]
      have he : (emit (GEvent.tokenBonus BonusSource.deployment DEPLOYMENT_BONUS)
            (resetGame o s)).events
          = (resetGame o s).events
              ++ [GEvent.tokenBonus BonusSource.deployment DEPLOYMENT_BONUS] := rfl
      rw [he, deployCount_append, resetGame_deploy]
      simp [deployCount, GEvent.isDeployBonus]
